import Mathlib

/-!
Shallow embedding of the g-code visualiser in `src/main.cpp`.

Modelling conventions:
* C++ `float` arithmetic is idealised as exact rational arithmetic (`ℚ`); no
  claim in this development hinges on IEEE rounding error.  `std::round` is
  `cppRound` (round half away from zero), `std::numeric_limits<float>::min()`
  is the exact rational `fltMin = 2 ^ (-126)`.
* Machine `int` values are `ℤ`, `size_t` values are `ℕ`.
* The canvas (`class Matrix`) is `rows`, `cols` and a flat byte buffer
  modelled as `List ℕ`.  `Matrix::drawLine` writes through raw flat indices
  `x + y * cols` exactly as the source does; a raw write whose flat index is
  inside the allocation is performed at that index (so an out-of-bounds pixel
  coordinate can alias a different sample), while a write outside the
  allocation is undefined behaviour in C++ and leaves the model unchanged.
* The `do … while` rasterisation loops are modelled with a fuel parameter
  that strictly exceeds the iteration count of every terminating execution
  of the source loop (`|dx| + |dy| + 1`); when the source loop would not
  terminate (both deltas zero) the model truncates instead.
* Exceptions are modelled as `Option`/result values: `Matrix::operator()`
  throwing `OutOfRange` is `Matrix.get = none`, `UnknownGCode` is
  `callCode = none`.
* `std::to_string(round(z*10)/10).substr(…)` in `saveLayer` renders the value
  `round(z*10)/10` with one decimal digit; the layer name tag is modelled as
  that rational.  Layer artifacts (`saveJpeg` calls) are recorded in a list.
* The `static int i` counter of `saveLayer` is modelled as instance state
  (`layerCounter`); the program creates a single `MatrixMotor`, so the two
  are indistinguishable in a run.
* `std::stof` is modelled for well-formed `[sign] digits [. digits]` inputs;
  on malformed numeric suffixes the real program throws (uncaught), which is
  outside every claim considered here.
-/

namespace Gcode

/-- Model of `std::round`: nearest integer, halfway cases away from zero. -/
def cppRound (q : ℚ) : Int :=
  if q < 0 then -(Int.floor (-q + 1/2)) else Int.floor (q + 1/2)

/-- The source's sign computation `(t < 0) ? -1 : 1` (used for `signa`/`signb`). -/
def sgn (t : Int) : Int := if t < 0 then -1 else 1

/-- The x-major `do … while` loop of `Matrix::drawLine` (the `sign == -1`
branch): `f += A*signa; if (f > 0) { f -= B*signb; y += signa; } x -= signb;`
then plot, repeated until the point equals the destination `(tx, ty)`.
The fuel argument is a modelling artifact (see the file header). -/
def loopX (tx ty A B sa sb : Int) : Nat → Int → Int → Int → List (Int × Int)
  | 0, _, _, _ => []
  | Nat.succ fuel, f, x, y =>
    let f2 := f + A * sa
    let y2 := if 0 < f2 then y + sa else y
    let f3 := if 0 < f2 then f2 - B * sb else f2
    let x2 := x - sb
    (x2, y2) :: (if x2 = tx ∧ y2 = ty then [] else loopX tx ty A B sa sb fuel f3 x2 y2)

/-- The y-major `do … while` loop of `Matrix::drawLine` (the `else` branch):
`f += B*signb; if (f > 0) { f -= A*signa; x -= signb; } y += signa;` then
plot, repeated until the point equals the destination. -/
def loopY (tx ty A B sa sb : Int) : Nat → Int → Int → Int → List (Int × Int)
  | 0, _, _, _ => []
  | Nat.succ fuel, f, x, y =>
    let f2 := f + B * sb
    let x2 := if 0 < f2 then x - sb else x
    let f3 := if 0 < f2 then f2 - A * sa else f2
    let y2 := y + sa
    (x2, y2) :: (if x2 = tx ∧ y2 = ty then [] else loopY tx ty A B sa sb fuel f3 x2 y2)

/-- The ordered list of points plotted by `Matrix::drawLine(x0, y0, x1, y1, c)`:
the initial store `matrix[x0 + y0*cols] = c` followed by the points of the
selected octant loop (`A = y1-y0`, `B = x0-x1`, major axis chosen by
`|A| > |B|`). -/
def linePts (x0 y0 x1 y1 : Int) : List (Int × Int) :=
  let A := y1 - y0
  let B := x0 - x1
  let fuel := A.natAbs + B.natAbs + 1
  (x0, y0) :: (if A.natAbs > B.natAbs
    then loopY x1 y1 A B (sgn A) (sgn B) fuel 0 x0 y0
    else loopX x1 y1 A B (sgn A) (sgn B) fuel 0 x0 y0)

/-- The canvas: `class Matrix` with its flat `uint8_t*` buffer. -/
structure Matrix where
  rows : Nat
  cols : Nat
  data : List Nat
deriving DecidableEq

/-- The zero-filled constructor `Matrix(rows, cols)`. -/
def Matrix.init (rows cols : Nat) : Matrix :=
  ⟨rows, cols, List.replicate (rows * cols) 0⟩

/-- `Matrix::clear()`: overwrite all `rows*cols` samples with 0. -/
def Matrix.clear (m : Matrix) : Matrix :=
  { m with data := List.replicate (m.rows * m.cols) 0 }

/-- `Matrix::operator()(i, j)` (row `i`, column `j`): explicit bounds check
throwing `OutOfRange` (modelled as `none`), then the flat read
`matrix[j + i*cols]`. -/
def Matrix.get (m : Matrix) (i j : Nat) : Option Nat :=
  if m.rows ≤ i ∨ m.cols ≤ j then none else some (m.data.getD (j + i * m.cols) 0)

/-- One raw store `matrix[idx] = v` of `drawLine`.  The source performs the
store unconditionally; an index inside the allocation hits that byte of the
buffer, an index outside it is undefined behaviour in C++ (modelled as a
no-op; no claim depends on that case). -/
def Matrix.setFlat (m : Matrix) (idx : Int) (v : Nat) : Matrix :=
  if 0 ≤ idx ∧ idx < (m.data.length : Int) then
    { m with data := m.data.set idx.toNat v }
  else m

/-- `Matrix::drawLine`: perform the raw stores `matrix[x + y*cols] = color`
at each plotted point.  Note the source contains no bounds check here. -/
def Matrix.drawLine (m : Matrix) (x0 y0 x1 y1 : Int) (color : Nat) : Matrix :=
  (linePts x0 y0 x1 y1).foldl
    (fun mm q => mm.setFlat (q.1 + q.2 * (mm.cols : Int)) color) m

/-- Analysis helper (not from the source): the error-accumulator trace of the
octant loops.  Component 1 is the number of minor-axis steps taken and
component 2 the error value `f`, after `k` major-axis iterations, when each
iteration adds `a` (the minor delta) to `f` and subtracts `n` (the major
delta) whenever `f` becomes positive. -/
def errS (a n : Nat) : Nat → Nat × Int
  | 0 => (0, 0)
  | Nat.succ k =>
    let p := errS a n k
    let f2 := p.2 + (a : Int)
    if 0 < f2 then (p.1 + 1, f2 - (n : Int)) else (p.1, f2)

/-- Analysis helper: the point plotted by the x-major loop after `m`
iterations, in closed form. -/
def ptX (x0 y0 sa sb : Int) (a n : Nat) (m : Nat) : Int × Int :=
  (x0 - (m : Int) * sb, y0 + sa * ((errS a n m).1 : Int))

/-- Analysis helper: the points plotted by the x-major loop from iteration
`k+1` through `k+c`, in closed form. -/
def chainX (x0 y0 sa sb : Int) (a n : Nat) : Nat → Nat → List (Int × Int)
  | _, 0 => []
  | k, Nat.succ c => ptX x0 y0 sa sb a n (k + 1) :: chainX x0 y0 sa sb a n (k + 1) c

/-- Analysis helper: the point plotted by the y-major loop after `m`
iterations, in closed form. -/
def ptY (x0 y0 sa sb : Int) (a n : Nat) (m : Nat) : Int × Int :=
  (x0 - sb * ((errS a n m).1 : Int), y0 + (m : Int) * sa)

/-- Analysis helper: the points plotted by the y-major loop from iteration
`k+1` through `k+c`, in closed form. -/
def chainY (x0 y0 sa sb : Int) (a n : Nat) : Nat → Nat → List (Int × Int)
  | _, 0 => []
  | k, Nat.succ c => ptY x0 y0 sa sb a n (k + 1) :: chainY x0 y0 sa sb a n (k + 1) c

/-- `struct Axes`: `float _x, _y, _z, _e; uint16_t _f;`, default constructed
to all zeroes. -/
structure Axes where
  x : ℚ
  y : ℚ
  z : ℚ
  e : ℚ
  f : Nat
deriving DecidableEq

/-- The default constructor `Axes()`. -/
def Axes.zero : Axes := ⟨0, 0, 0, 0, 0⟩

/-- The C++ `float → uint16_t` conversion used for `ax._f` (truncation toward
zero; negative or overflowing values are undefined behaviour in C++ and are
not exercised by any claim). -/
def toU16 (q : ℚ) : Nat := (Int.floor q).toNat % 65536

/-- One layer artifact emitted by `MatrixMotor::saveLayer`
(`img/layer_<index>_<tag>.jpg` holding the canvas contents at flush time). -/
structure Layer where
  index : Nat
  tag : ℚ
  content : Matrix
deriving DecidableEq

/-- The raster-recording stepper motor `class MatrixMotor`: current and
previous axis registers, the canvas, the work flag, the `saveLayer` counter
and the emitted layer artifacts. -/
structure MatrixMotor where
  prevX : Int
  prevY : Int
  prevZ : Int
  prevE : Int
  x : Int
  y : Int
  z : Int
  e : Int
  m : Matrix
  isWork : Bool
  layerCounter : Nat
  layers : List Layer
deriving DecidableEq

/-- `MatrixMotor()` constructor: a `2.2 * 1000 = 2200` square canvas, all
registers zero, motors on. -/
def MatrixMotor.init : MatrixMotor :=
  ⟨0, 0, 0, 0, 0, 0, 0, 0, Matrix.init 2200 2200, true, 0, []⟩

/-- `MatrixMotor::saveLayer(layer)`: emit the current canvas as artifact
number `i++` whose name tag is `std::round(layer*10)/10` (rendered with one
decimal digit by the `to_string`/`substr` pair), then `m.clear()`. -/
def MatrixMotor.saveLayer (s : MatrixMotor) (layer : ℚ) : MatrixMotor :=
  { s with
    layers := s.layers ++ [⟨s.layerCounter, (cppRound (layer * 10) : ℚ) / 10, s.m⟩],
    layerCounter := s.layerCounter + 1,
    m := s.m.clear }

/-- `MatrixMotor::setting(ax)`: the sequential assignments
`_prevX = (ax._x != 0) ? round(ax._x*10) : _prevX;`
`_prevY = (ax._y != 0) ? round(ax._y*10) : _prevX;`
`_prevZ = (ax._z != 0) ? round(ax._z*10) : _prevX;`
`_prevE = (ax._e != 0) ? round(ax._e*10) : _prevX;`
(note: the fallback of the last three reads the just-updated `_prevX`). -/
def MatrixMotor.setting (s : MatrixMotor) (ax : Axes) : MatrixMotor :=
  let pX := if ax.x ≠ 0 then cppRound (ax.x * 10) else s.prevX
  let pY := if ax.y ≠ 0 then cppRound (ax.y * 10) else pX
  let pZ := if ax.z ≠ 0 then cppRound (ax.z * 10) else pX
  let pE := if ax.e ≠ 0 then cppRound (ax.e * 10) else pX
  { s with prevX := pX, prevY := pY, prevZ := pZ, prevE := pE }

/-- `MatrixMotor::moveE(ax)`: early-out when the motors are off; new raster
coordinates (`!= 0` test, `round(value*10)`, else carry `_prev`); `saveLayer`
when `ax._z != 0`; degenerate-move early return; otherwise draw the line with
intensity 255 and call `setting`. -/
def MatrixMotor.moveE (s : MatrixMotor) (ax : Axes) : MatrixMotor :=
  if s.isWork then
    let nx := if ax.x ≠ 0 then cppRound (ax.x * 10) else s.prevX
    let ny := if ax.y ≠ 0 then cppRound (ax.y * 10) else s.prevY
    let s1 : MatrixMotor := { s with x := nx, y := ny }
    let s2 := if ax.z ≠ 0 then s1.saveLayer ax.z else s1
    if s2.prevX = nx ∧ s2.prevY = ny then s2
    else
      let s3 : MatrixMotor := { s2 with m := s2.m.drawLine s2.prevX s2.prevY nx ny 255 }
      s3.setting ax
  else s

/-- `MatrixMotor::move(ax)`: identical to `moveE` except that no line is
drawn (travel move). -/
def MatrixMotor.move (s : MatrixMotor) (ax : Axes) : MatrixMotor :=
  if s.isWork then
    let nx := if ax.x ≠ 0 then cppRound (ax.x * 10) else s.prevX
    let ny := if ax.y ≠ 0 then cppRound (ax.y * 10) else s.prevY
    let s1 : MatrixMotor := { s with x := nx, y := ny }
    let s2 := if ax.z ≠ 0 then s1.saveLayer ax.z else s1
    if s2.prevX = nx ∧ s2.prevY = ny then s2
    else s2.setting ax
  else s

/-- `MatrixMotor::on()`: set the work flag (the log line is not modelled). -/
def MatrixMotor.on (s : MatrixMotor) : MatrixMotor := { s with isWork := true }

/-- `MatrixMotor::off()`: clear the work flag (the log line is not modelled). -/
def MatrixMotor.off (s : MatrixMotor) : MatrixMotor := { s with isWork := false }

/-- `std::numeric_limits<float>::min()`, the sentinel produced by the parser
for a parameter letter with no numeric suffix: the smallest positive
normalised binary32 value, exactly `2 ^ (-126)`. -/
def fltMin : ℚ := 1 / 2 ^ 126

/-- Accumulate a digit string into a natural number. -/
def natOfDigits (l : List Char) : Nat :=
  l.foldl (fun acc c => acc * 10 + (c.toNat - 48)) 0

/-- Digit test for the decimal grammar accepted by `std::stof`. -/
def isDig (c : Char) : Bool := 48 ≤ c.toNat && c.toNat ≤ 57

/-- Model of `std::stof` on well-formed inputs `[sign] digits [. digits]`
(idealised to exact rationals; exponents and malformed suffixes — on which
the real call throws — are outside every claim). -/
def stofQ (cs : List Char) : ℚ :=
  let sr : ℚ × List Char :=
    match cs with
    | '-' :: r => (-1, r)
    | '+' :: r => (1, r)
    | r => (1, r)
  let intPart := sr.2.takeWhile isDig
  let rest2 := sr.2.dropWhile isDig
  let frac :=
    match rest2 with
    | '.' :: r2 => r2.takeWhile isDig
    | _ => []
  sr.1 * ((natOfDigits intPart : ℚ) + (natOfDigits frac : ℚ) / 10 ^ frac.length)

/-- `Arbitr::getCmdId(id)`: first character is the parameter letter, the rest
is `stof`-parsed when non-empty, else the `FLT_MIN` sentinel.  (`id[0]` on an
empty token reads the terminating null character.) -/
def getCmdId (tok : List Char) : Char × ℚ :=
  (tok.headD (Char.ofNat 0),
   if (tok.drop 1).isEmpty then fltMin else stofQ (tok.drop 1))

/-- `Arbitr::getAxes(pairs, size)`: fold the `(letter, value)` pairs into an
`Axes` value starting from the default constructor; unknown letters are
ignored. -/
def getAxes (pairs : List (Char × ℚ)) : Axes :=
  pairs.foldl
    (fun ax p =>
      if p.1 = 'X' then { ax with x := p.2 }
      else if p.1 = 'Y' then { ax with y := p.2 }
      else if p.1 = 'Z' then { ax with z := p.2 }
      else if p.1 = 'E' then { ax with e := p.2 }
      else if p.1 = 'F' then { ax with f := toU16 p.2 }
      else ax)
    Axes.zero

/-- `Arbitr::callCode(cmd, pairs, size)`: dispatch on the mnemonic; the
`M8x`/`M1xx` handlers only log, `G90`/`G91` notify the motor's axis-mode
methods (which only log in `MatrixMotor`), and an unrecognised mnemonic
throws `UnknownGCode` (modelled as `none`). -/
def callCode (cmd : List Char) (pairs : List (Char × ℚ)) (s : MatrixMotor) :
    Option MatrixMotor :=
  if cmd = ['G', '0'] then some (s.move (getAxes pairs))
  else if cmd = ['G', '1'] then some (s.moveE (getAxes pairs))
  else if cmd = ['G', '2', '8'] then some (s.move Axes.zero)
  else if cmd = ['G', '9', '0'] then some s
  else if cmd = ['G', '9', '1'] then some s
  else if cmd = ['G', '9', '2'] then some (s.setting Axes.zero)
  else if cmd = ['M', '8', '2'] then some s
  else if cmd = ['M', '8', '4'] then some s.off
  else if cmd = ['M', '1', '0', '4'] then some s
  else if cmd = ['M', '1', '0', '5'] then some s
  else if cmd = ['M', '1', '0', '6'] then some s
  else if cmd = ['M', '1', '0', '7'] then some s
  else if cmd = ['M', '1', '0', '9'] then some s
  else if cmd = ['M', '1', '4', '0'] then some s
  else if cmd = ['M', '1', '9', '0'] then some s
  else none

/-- Whether a mnemonic is in the recognised set of `callCode` (same
condition chain as `callCode`). -/
def recognized (cmd : List Char) : Bool :=
  if cmd = ['G', '0'] then true
  else if cmd = ['G', '1'] then true
  else if cmd = ['G', '2', '8'] then true
  else if cmd = ['G', '9', '0'] then true
  else if cmd = ['G', '9', '1'] then true
  else if cmd = ['G', '9', '2'] then true
  else if cmd = ['M', '8', '2'] then true
  else if cmd = ['M', '8', '4'] then true
  else if cmd = ['M', '1', '0', '4'] then true
  else if cmd = ['M', '1', '0', '5'] then true
  else if cmd = ['M', '1', '0', '6'] then true
  else if cmd = ['M', '1', '0', '7'] then true
  else if cmd = ['M', '1', '0', '9'] then true
  else if cmd = ['M', '1', '4', '0'] then true
  else if cmd = ['M', '1', '9', '0'] then true
  else false

/-- `strReaded.substr(0, strReaded.find(";"))`: strip an inline comment. -/
def stripComment (l : List Char) : List Char := l.takeWhile (fun c => c ≠ ';')

/-- Auxiliary splitter reproducing `std::getline(ss, item, ' ')`: emit the
accumulated token at each delimiter; after consuming a delimiter with nothing
left, extraction fails and the loop ends (no trailing empty token). -/
def splitAux (cur : List Char) : List Char → List (List Char)
  | [] => [cur.reverse]
  | c :: cs =>
    if c = ' ' then
      cur.reverse :: (match cs with
        | [] => []
        | _ => splitAux [] cs)
    else splitAux (c :: cur) cs

/-- `Arbitr::split(s, ' ')`: `getline`-based splitting (an empty string
yields no tokens at all). -/
def cppSplit (s : List Char) : List (List Char) :=
  match s with
  | [] => []
  | _ => splitAux [] s

/-- The mnemonic a line would dispatch: first `getline`-token of the
comment-stripped line. -/
def lineCmd (l : List Char) : List Char :=
  (cppSplit (stripComment l)).headD []

/-- A line is harmless for the dispatcher: it is skipped (empty after comment
stripping) or its mnemonic is recognised. -/
def lineOk (l : List Char) : Bool :=
  (stripComment l).isEmpty || recognized (lineCmd l)

/-- Byte accounting of `Arbitr::make`: each consumed line contributes
`strReaded.size() + 1` to `currentSize`. -/
def bytesOf (lines : List (List Char)) : Nat :=
  (lines.map (fun l => l.length + 1)).sum

/-- The fraction printed on abort:
`std::round(float(currentSize)/float(fileSize)*100.0)/100.0`. -/
def reportFrac (fileSize cur : Nat) : ℚ :=
  (cppRound ((cur : ℚ) / (fileSize : ℚ) * 100) : ℚ) / 100

/-- Result of `Arbitr::make`: the returned status, the abort report (printed
fraction and offending mnemonic) if any, and the final motor state. -/
structure RunOutcome where
  status : Int
  report : Option (ℚ × List Char)
  motor : MatrixMotor
deriving DecidableEq

/-- The loop body of `Arbitr::make` over the remaining lines.  `cur` is
`currentSize`.  A line is consumed (`cur += size + 1`), comment-stripped,
skipped when empty, split into mnemonic and `getCmdId`-parsed parameter
pairs, and dispatched; `UnknownGCode` aborts with status `-1` after printing
the rounded progress fraction and the mnemonic. -/
def makeLoop (fileSize : Nat) : List (List Char) → Nat → MatrixMotor → RunOutcome
  | [], _, s => ⟨0, none, s⟩
  | line :: rest, cur, s =>
    let cur2 := cur + line.length + 1
    let strClear := stripComment line
    if strClear.isEmpty then makeLoop fileSize rest cur2 s
    else
      let toks := cppSplit strClear
      let cmd := toks.headD []
      let pairs := (toks.drop 1).map getCmdId
      match callCode cmd pairs s with
      | some s2 => makeLoop fileSize rest cur2 s2
      | none => ⟨-1, some (reportFrac fileSize cur2, cmd), s⟩

/-- `Arbitr::make()`: the `for` loop's first iteration runs on the initial
empty `strReaded` (contributing one byte to `currentSize`) before the first
`getline`; thereafter each input line is processed once. -/
def Arbitr.make (fileSize : Nat) (lines : List (List Char)) (s : MatrixMotor) :
    RunOutcome :=
  makeLoop fileSize lines 1 s

/-- A small motor state for concrete instantiations: an 8×8 canvas, all
registers zero, motors on. -/
def tinyMotor : MatrixMotor := ⟨0, 0, 0, 0, 0, 0, 0, 0, Matrix.init 8 8, true, 0, []⟩

/-- A motor state whose stored previous X position is 7. -/
def c1State : MatrixMotor := ⟨7, 0, 0, 0, 7, 0, 0, 0, Matrix.init 8 8, true, 0, []⟩

/-- A motor state whose 2×2 canvas carries one painted sample. -/
def c8State : MatrixMotor := ⟨0, 0, 0, 0, 0, 0, 0, 0, ⟨2, 2, [255, 0, 0, 0]⟩, true, 0, []⟩

/-! ### Evaluation helpers for `cppRound` -/

lemma cppRound_intCast (n : ℤ) : cppRound ((n : ℚ)) = n := by
  have h0 : ⌊(1/2 : ℚ)⌋ = 0 := by
    rw [Int.floor_eq_iff] <;> norm_num
  unfold cppRound
  split
  · have h1 : (-(n : ℚ) + 1/2) = ((-n : ℤ) : ℚ) + 1/2 := by push_cast; ring
    rw [h1, Int.floor_int_add, h0]
    omega
  · have h1 : ((n : ℚ) + 1/2) = ((n : ℤ) : ℚ) + 1/2 := by push_cast; ring
    rw [h1, Int.floor_int_add, h0]
    omega

lemma cppRound_eq_of_cast (q : ℚ) (n : ℤ) (h : q = (n : ℚ)) : cppRound q = n := by
  rw [h, cppRound_intCast]

/-! ### Projection lemmas for the motor operations -/

lemma moveE_not_work (s : MatrixMotor) (ax : Axes) (hw : s.isWork = false) :
    s.moveE ax = s := by
  unfold MatrixMotor.moveE
  simp [hw]

lemma move_not_work (s : MatrixMotor) (ax : Axes) (hw : s.isWork = false) :
    s.move ax = s := by
  unfold MatrixMotor.move
  simp [hw]

lemma moveE_x (s : MatrixMotor) (ax : Axes) (hw : s.isWork = true) :
    (s.moveE ax).x = if ax.x ≠ 0 then cppRound (ax.x * 10) else s.prevX := by
  unfold MatrixMotor.moveE
  simp only [hw, if_true]
  split_ifs <;> simp_all [MatrixMotor.saveLayer, MatrixMotor.setting]

lemma moveE_y (s : MatrixMotor) (ax : Axes) (hw : s.isWork = true) :
    (s.moveE ax).y = if ax.y ≠ 0 then cppRound (ax.y * 10) else s.prevY := by
  unfold MatrixMotor.moveE
  simp only [hw, if_true]
  split_ifs <;> simp_all [MatrixMotor.saveLayer, MatrixMotor.setting]

lemma moveE_isWork (s : MatrixMotor) (ax : Axes) (hw : s.isWork = true) :
    (s.moveE ax).isWork = true := by
  unfold MatrixMotor.moveE
  simp only [hw, if_true]
  split_ifs <;> simp_all [MatrixMotor.saveLayer, MatrixMotor.setting]

lemma moveE_layers (s : MatrixMotor) (ax : Axes) (hw : s.isWork = true) :
    (s.moveE ax).layers =
      if ax.z ≠ 0 then
        s.layers ++ [⟨s.layerCounter, (cppRound (ax.z * 10) : ℚ) / 10, s.m⟩]
      else s.layers := by
  unfold MatrixMotor.moveE
  simp only [hw, if_true]
  split_ifs <;> simp_all [MatrixMotor.saveLayer, MatrixMotor.setting]

lemma moveE_counter (s : MatrixMotor) (ax : Axes) (hw : s.isWork = true) :
    (s.moveE ax).layerCounter =
      if ax.z ≠ 0 then s.layerCounter + 1 else s.layerCounter := by
  unfold MatrixMotor.moveE
  simp only [hw, if_true]
  split_ifs <;> simp_all [MatrixMotor.saveLayer, MatrixMotor.setting]

lemma move_x (s : MatrixMotor) (ax : Axes) (hw : s.isWork = true) :
    (s.move ax).x = if ax.x ≠ 0 then cppRound (ax.x * 10) else s.prevX := by
  unfold MatrixMotor.move
  simp only [hw, if_true]
  split_ifs <;> simp_all [MatrixMotor.saveLayer, MatrixMotor.setting]

lemma move_y (s : MatrixMotor) (ax : Axes) (hw : s.isWork = true) :
    (s.move ax).y = if ax.y ≠ 0 then cppRound (ax.y * 10) else s.prevY := by
  unfold MatrixMotor.move
  simp only [hw, if_true]
  split_ifs <;> simp_all [MatrixMotor.saveLayer, MatrixMotor.setting]

lemma move_layers (s : MatrixMotor) (ax : Axes) (hw : s.isWork = true) :
    (s.move ax).layers =
      if ax.z ≠ 0 then
        s.layers ++ [⟨s.layerCounter, (cppRound (ax.z * 10) : ℚ) / 10, s.m⟩]
      else s.layers := by
  unfold MatrixMotor.move
  simp only [hw, if_true]
  split_ifs <;> simp_all [MatrixMotor.saveLayer, MatrixMotor.setting]

lemma move_counter (s : MatrixMotor) (ax : Axes) (hw : s.isWork = true) :
    (s.move ax).layerCounter =
      if ax.z ≠ 0 then s.layerCounter + 1 else s.layerCounter := by
  unfold MatrixMotor.move
  simp only [hw, if_true]
  split_ifs <;> simp_all [MatrixMotor.saveLayer, MatrixMotor.setting]

/-- Stored positions after a non-degenerate `moveE` (the new raster point
differs from the stored previous point): `setting` runs, whose `_prevY`
fallback reads the freshly assigned `_prevX`. -/
lemma moveE_prev_of_ne (s : MatrixMotor) (ax : Axes) (hw : s.isWork = true)
    (hmove : ¬((if ax.x ≠ 0 then cppRound (ax.x * 10) else s.prevX) = s.prevX ∧
               (if ax.y ≠ 0 then cppRound (ax.y * 10) else s.prevY) = s.prevY)) :
    (s.moveE ax).prevX = (if ax.x ≠ 0 then cppRound (ax.x * 10) else s.prevX) ∧
    (s.moveE ax).prevY =
      (if ax.y ≠ 0 then cppRound (ax.y * 10)
       else (if ax.x ≠ 0 then cppRound (ax.x * 10) else s.prevX)) := by
  unfold MatrixMotor.moveE
  simp only [hw, if_true]
  split_ifs with h1 h2 h2 <;>
    simp_all [MatrixMotor.saveLayer, MatrixMotor.setting]

/-- A degenerate `moveE` (both computed raster coordinates equal the stored
previous point) returns before drawing or `setting`. -/
lemma moveE_degenerate (s : MatrixMotor) (ax : Axes) (hw : s.isWork = true)
    (hx : (if ax.x ≠ 0 then cppRound (ax.x * 10) else s.prevX) = s.prevX)
    (hy : (if ax.y ≠ 0 then cppRound (ax.y * 10) else s.prevY) = s.prevY) :
    (s.moveE ax).prevX = s.prevX ∧ (s.moveE ax).prevY = s.prevY ∧
    (s.moveE ax).x = s.prevX ∧ (s.moveE ax).y = s.prevY ∧
    (s.moveE ax).m = (if ax.z ≠ 0 then s.m.clear else s.m) := by
  unfold MatrixMotor.moveE
  simp only [hw, if_true, hx, hy]
  split_ifs <;> simp_all [MatrixMotor.saveLayer, MatrixMotor.setting, Matrix.clear]

/-- A degenerate `move` likewise returns before `setting`. -/
lemma move_degenerate (s : MatrixMotor) (ax : Axes) (hw : s.isWork = true)
    (hx : (if ax.x ≠ 0 then cppRound (ax.x * 10) else s.prevX) = s.prevX)
    (hy : (if ax.y ≠ 0 then cppRound (ax.y * 10) else s.prevY) = s.prevY) :
    (s.move ax).prevX = s.prevX ∧ (s.move ax).prevY = s.prevY ∧
    (s.move ax).m = (if ax.z ≠ 0 then s.m.clear else s.m) := by
  unfold MatrixMotor.move
  simp only [hw, if_true, hx, hy]
  split_ifs <;> simp_all [MatrixMotor.saveLayer, MatrixMotor.setting, Matrix.clear]

lemma cppRound_pos_eval (q : ℚ) (n : ℤ) (h0 : ¬q < 0)
    (h1 : (n : ℚ) ≤ q + 1/2) (h2 : q + 1/2 < n + 1) : cppRound q = n := by
  unfold cppRound
  rw [if_neg h0, Int.floor_eq_iff]
  constructor
  · exact h1
  · push_cast
    exact h2

/-! ### Rasterizer closed form and canvas-write characterisation -/

lemma errS_succ (a n k : Nat) :
    errS a n (k + 1) =
      (if 0 < (errS a n k).2 + (a : Int)
       then ((errS a n k).1 + 1, (errS a n k).2 + (a : Int) - (n : Int))
       else ((errS a n k).1, (errS a n k).2 + (a : Int))) := by
  rw [errS]

lemma errS_bounds (a n : Nat) (han : a ≤ n) (hn : 1 ≤ n) :
    ∀ k, -(n : Int) < (errS a n k).2 ∧ (errS a n k).2 ≤ 0 := by
  intro k
  induction k with
  | zero => simp [errS]; omega
  | succ k ih =>
    rw [errS]
    split <;> simp_all <;> omega

lemma errS_linear (a n : Nat) :
    ∀ k, (errS a n k).2 = (k : Int) * (a : Int) - ((errS a n k).1 : Int) * (n : Int) := by
  intro k
  induction k with
  | zero => simp [errS]
  | succ k ih =>
    rw [errS_succ]
    split
    · simp only []
      push_cast
      rw [ih]
      ring
    · simp only []
      push_cast
      rw [ih]
      ring

lemma errS_fst_le_succ (a n k : Nat) :
    (errS a n k).1 ≤ (errS a n (k + 1)).1 ∧ (errS a n (k + 1)).1 ≤ (errS a n k).1 + 1 := by
  rw [errS_succ]
  split <;> simp

lemma errS_fst_mono (a n : Nat) : ∀ j k, j ≤ k → (errS a n j).1 ≤ (errS a n k).1 := by
  intro j k
  induction k with
  | zero =>
    intro h
    have hj : j = 0 := by omega
    subst hj
    exact le_rfl
  | succ k ih =>
    intro h
    rcases Nat.lt_or_ge j (k + 1) with h1 | h2
    · exact le_trans (ih (by omega)) (errS_fst_le_succ a n k).1
    · have hj : j = k + 1 := by omega
      subst hj
      exact le_rfl

lemma errS_top (a n : Nat) (han : a ≤ n) (hn : 1 ≤ n) : (errS a n n).1 = a := by
  have hb := errS_bounds a n han hn n
  have hl := errS_linear a n n
  set S := (errS a n n).1 with hS
  rcases lt_trichotomy ((a : Int) - (S : Int)) 0 with h | h | h
  · exfalso
    have hmul : ((a : Int) + 1) * (n : Int) ≤ (S : Int) * (n : Int) :=
      mul_le_mul_of_nonneg_right (by omega) (by omega)
    have hexp : ((a : Int) + 1) * (n : Int) = (n : Int) * (a : Int) + (n : Int) := by ring
    omega
  · omega
  · exfalso
    have hmul : (S : Int) * (n : Int) ≤ ((a : Int) - 1) * (n : Int) :=
      mul_le_mul_of_nonneg_right (by omega) (by omega)
    have hexp : ((a : Int) - 1) * (n : Int) = (n : Int) * (a : Int) - (n : Int) := by ring
    omega

lemma errS_fst_le (a n : Nat) (han : a ≤ n) (hn : 1 ≤ n) :
    ∀ k, k ≤ n → (errS a n k).1 ≤ a := by
  intro k hk
  calc (errS a n k).1 ≤ (errS a n n).1 := errS_fst_mono a n k n hk
  _ = a := errS_top a n han hn

lemma sgn_cases (t : Int) : sgn t = 1 ∨ sgn t = -1 := by
  unfold sgn
  split
  · right; rfl
  · left; rfl

lemma mul_sgn (t : Int) : t * sgn t = (t.natAbs : Int) := by
  unfold sgn
  split
  · rw [mul_neg_one]
    omega
  · rw [mul_one]
    omega

lemma loopX_eq_chain (x0 y0 A B sa sb : Int) (a n : Nat)
    (hA : A * sa = (a : Int)) (hB : B * sb = (n : Int))
    (hsb : sb = 1 ∨ sb = -1) (han : a ≤ n) (hn : 1 ≤ n) :
    ∀ c k fuel, 1 ≤ c → k + c = n → c ≤ fuel →
      loopX (x0 - (n : Int) * sb) (y0 + sa * (a : Int)) A B sa sb fuel
        (errS a n k).2 (x0 - (k : Int) * sb) (y0 + sa * ((errS a n k).1 : Int))
      = chainX x0 y0 sa sb a n k c := by
  intro c
  induction c with
  | zero => intro k fuel h1 _ _; omega
  | succ c ih =>
    intro k fuel h1 hkc hfuel
    obtain ⟨fu, rfl⟩ : ∃ fu, fuel = fu + 1 := ⟨fuel - 1, by omega⟩
    rw [loopX]
    simp only [hA, hB]
    have hx2 : x0 - (k : Int) * sb - sb = x0 - ((k + 1 : Nat) : Int) * sb := by
      push_cast
      ring
    by_cases h2 : 0 < (errS a n k).2 + (a : Int)
    · have hS : (errS a n (k + 1)).1 = (errS a n k).1 + 1 := by
        rw [errS_succ, if_pos h2]
      have hF : (errS a n (k + 1)).2 = (errS a n k).2 + (a : Int) - (n : Int) := by
        rw [errS_succ, if_pos h2]
      have hy2 : y0 + sa * ((errS a n k).1 : Int) + sa
          = y0 + sa * ((errS a n (k + 1)).1 : Int) := by
        rw [hS]
        push_cast
        ring
      rw [if_pos h2, if_pos h2, hx2, hy2, ← hF]
      rcases Nat.eq_zero_or_pos c with hc | hc
      · subst hc
        have hkn : k + 1 = n := by omega
        have htx : x0 - ((k + 1 : Nat) : Int) * sb = x0 - (n : Int) * sb := by
          rw [hkn]
        have hty : y0 + sa * ((errS a n (k + 1)).1 : Int) = y0 + sa * (a : Int) := by
          rw [hkn, errS_top a n han hn]
        rw [if_pos ⟨htx, hty⟩]
        show _ = ptX x0 y0 sa sb a n (k + 1) :: chainX x0 y0 sa sb a n (k + 1) 0
        rw [ptX, chainX]
      · have hne : ¬(x0 - ((k + 1 : Nat) : Int) * sb = x0 - (n : Int) * sb ∧
            y0 + sa * ((errS a n (k + 1)).1 : Int) = y0 + sa * (a : Int)) := by
          rintro ⟨hx, -⟩
          rcases hsb with rfl | rfl <;> [skip; skip] <;>
            · push_cast at hx
              omega
        rw [if_neg hne]
        rw [ih (k + 1) fu (by omega) (by omega) (by omega)]
        show _ = ptX x0 y0 sa sb a n (k + 1) :: chainX x0 y0 sa sb a n (k + 1) c
        rw [ptX]
    · have hS : (errS a n (k + 1)).1 = (errS a n k).1 := by
        rw [errS_succ, if_neg h2]
      have hF : (errS a n (k + 1)).2 = (errS a n k).2 + (a : Int) := by
        rw [errS_succ, if_neg h2]
      have hy2 : y0 + sa * ((errS a n k).1 : Int)
          = y0 + sa * ((errS a n (k + 1)).1 : Int) := by
        rw [hS]
      rw [if_neg h2, if_neg h2, hx2, hy2, ← hF]
      rcases Nat.eq_zero_or_pos c with hc | hc
      · subst hc
        have hkn : k + 1 = n := by omega
        have htx : x0 - ((k + 1 : Nat) : Int) * sb = x0 - (n : Int) * sb := by
          rw [hkn]
        have hty : y0 + sa * ((errS a n (k + 1)).1 : Int) = y0 + sa * (a : Int) := by
          rw [hkn, errS_top a n han hn]
        rw [if_pos ⟨htx, hty⟩]
        show _ = ptX x0 y0 sa sb a n (k + 1) :: chainX x0 y0 sa sb a n (k + 1) 0
        rw [ptX, chainX]
      · have hne : ¬(x0 - ((k + 1 : Nat) : Int) * sb = x0 - (n : Int) * sb ∧
            y0 + sa * ((errS a n (k + 1)).1 : Int) = y0 + sa * (a : Int)) := by
          rintro ⟨hx, -⟩
          rcases hsb with rfl | rfl <;> [skip; skip] <;>
            · push_cast at hx
              omega
        rw [if_neg hne]
        rw [ih (k + 1) fu (by omega) (by omega) (by omega)]
        show _ = ptX x0 y0 sa sb a n (k + 1) :: chainX x0 y0 sa sb a n (k + 1) c
        rw [ptX]

lemma loopY_eq_chain (x0 y0 A B sa sb : Int) (a n : Nat)
    (hA : A * sa = (n : Int)) (hB : B * sb = (a : Int))
    (hsa : sa = 1 ∨ sa = -1) (han : a ≤ n) (hn : 1 ≤ n) :
    ∀ c k fuel, 1 ≤ c → k + c = n → c ≤ fuel →
      loopY (x0 - sb * (a : Int)) (y0 + (n : Int) * sa) A B sa sb fuel
        (errS a n k).2 (x0 - sb * ((errS a n k).1 : Int)) (y0 + (k : Int) * sa)
      = chainY x0 y0 sa sb a n k c := by
  intro c
  induction c with
  | zero => intro k fuel h1 _ _; omega
  | succ c ih =>
    intro k fuel h1 hkc hfuel
    obtain ⟨fu, rfl⟩ : ∃ fu, fuel = fu + 1 := ⟨fuel - 1, by omega⟩
    rw [loopY]
    simp only [hA, hB]
    have hy2 : y0 + (k : Int) * sa + sa = y0 + ((k + 1 : Nat) : Int) * sa := by
      push_cast
      ring
    by_cases h2 : 0 < (errS a n k).2 + (a : Int)
    · have hS : (errS a n (k + 1)).1 = (errS a n k).1 + 1 := by
        rw [errS_succ, if_pos h2]
      have hF : (errS a n (k + 1)).2 = (errS a n k).2 + (a : Int) - (n : Int) := by
        rw [errS_succ, if_pos h2]
      have hx2 : x0 - sb * ((errS a n k).1 : Int) - sb
          = x0 - sb * ((errS a n (k + 1)).1 : Int) := by
        rw [hS]
        push_cast
        ring
      rw [if_pos h2, if_pos h2, hx2, hy2, ← hF]
      rcases Nat.eq_zero_or_pos c with hc | hc
      · subst hc
        have hkn : k + 1 = n := by omega
        have htx : x0 - sb * ((errS a n (k + 1)).1 : Int) = x0 - sb * (a : Int) := by
          rw [hkn, errS_top a n han hn]
        have hty : y0 + ((k + 1 : Nat) : Int) * sa = y0 + (n : Int) * sa := by
          rw [hkn]
        rw [if_pos ⟨htx, hty⟩]
        show _ = ptY x0 y0 sa sb a n (k + 1) :: chainY x0 y0 sa sb a n (k + 1) 0
        rw [ptY, chainY]
      · have hne : ¬(x0 - sb * ((errS a n (k + 1)).1 : Int) = x0 - sb * (a : Int) ∧
            y0 + ((k + 1 : Nat) : Int) * sa = y0 + (n : Int) * sa) := by
          rintro ⟨-, hy⟩
          rcases hsa with rfl | rfl <;>
            · push_cast at hy
              omega
        rw [if_neg hne]
        rw [ih (k + 1) fu (by omega) (by omega) (by omega)]
        show _ = ptY x0 y0 sa sb a n (k + 1) :: chainY x0 y0 sa sb a n (k + 1) c
        rw [ptY]
    · have hS : (errS a n (k + 1)).1 = (errS a n k).1 := by
        rw [errS_succ, if_neg h2]
      have hF : (errS a n (k + 1)).2 = (errS a n k).2 + (a : Int) := by
        rw [errS_succ, if_neg h2]
      have hx2 : x0 - sb * ((errS a n k).1 : Int)
          = x0 - sb * ((errS a n (k + 1)).1 : Int) := by
        rw [hS]
      rw [if_neg h2, if_neg h2, hx2, hy2, ← hF]
      rcases Nat.eq_zero_or_pos c with hc | hc
      · subst hc
        have hkn : k + 1 = n := by omega
        have htx : x0 - sb * ((errS a n (k + 1)).1 : Int) = x0 - sb * (a : Int) := by
          rw [hkn, errS_top a n han hn]
        have hty : y0 + ((k + 1 : Nat) : Int) * sa = y0 + (n : Int) * sa := by
          rw [hkn]
        rw [if_pos ⟨htx, hty⟩]
        show _ = ptY x0 y0 sa sb a n (k + 1) :: chainY x0 y0 sa sb a n (k + 1) 0
        rw [ptY, chainY]
      · have hne : ¬(x0 - sb * ((errS a n (k + 1)).1 : Int) = x0 - sb * (a : Int) ∧
            y0 + ((k + 1 : Nat) : Int) * sa = y0 + (n : Int) * sa) := by
          rintro ⟨-, hy⟩
          rcases hsa with rfl | rfl <;>
            · push_cast at hy
              omega
        rw [if_neg hne]
        rw [ih (k + 1) fu (by omega) (by omega) (by omega)]
        show _ = ptY x0 y0 sa sb a n (k + 1) :: chainY x0 y0 sa sb a n (k + 1) c
        rw [ptY]

lemma linePts_eq_x (x0 y0 x1 y1 : Int)
    (hmaj : ¬((y1 - y0).natAbs > (x0 - x1).natAbs))
    (hne : ¬(x0 = x1 ∧ y0 = y1)) :
    linePts x0 y0 x1 y1 =
      (x0, y0) :: chainX x0 y0 (sgn (y1 - y0)) (sgn (x0 - x1)) (y1 - y0).natAbs
        (x0 - x1).natAbs 0 (x0 - x1).natAbs := by
  have hn : 1 ≤ (x0 - x1).natAbs := by
    rcases Nat.eq_zero_or_pos (x0 - x1).natAbs with h | h
    · exfalso
      apply hne
      constructor <;> omega
    · exact h
  have han : (y1 - y0).natAbs ≤ (x0 - x1).natAbs := by omega
  have base := loopX_eq_chain x0 y0 (y1 - y0) (x0 - x1) (sgn (y1 - y0)) (sgn (x0 - x1))
    (y1 - y0).natAbs (x0 - x1).natAbs (mul_sgn _) (mul_sgn _) (sgn_cases _) han hn
    (x0 - x1).natAbs 0 ((y1 - y0).natAbs + (x0 - x1).natAbs + 1) hn (by omega) (by omega)
  have e1 : x0 - ((x0 - x1).natAbs : Int) * sgn (x0 - x1) = x1 := by
    have hm := mul_sgn (x0 - x1)
    rcases sgn_cases (x0 - x1) with h | h <;> rw [h] <;> rw [h] at hm <;> omega
  have e2 : y0 + sgn (y1 - y0) * ((y1 - y0).natAbs : Int) = y1 := by
    have hm := mul_sgn (y1 - y0)
    rcases sgn_cases (y1 - y0) with h | h <;> rw [h] <;> rw [h] at hm <;> omega
  rw [e1, e2] at base
  simp only [errS, Nat.cast_zero, zero_mul, sub_zero, mul_zero, add_zero] at base
  simp only [linePts]
  rw [if_neg hmaj]
  rw [base]

lemma linePts_eq_y (x0 y0 x1 y1 : Int)
    (hmaj : (y1 - y0).natAbs > (x0 - x1).natAbs) :
    linePts x0 y0 x1 y1 =
      (x0, y0) :: chainY x0 y0 (sgn (y1 - y0)) (sgn (x0 - x1)) (x0 - x1).natAbs
        (y1 - y0).natAbs 0 (y1 - y0).natAbs := by
  have hn : 1 ≤ (y1 - y0).natAbs := by omega
  have han : (x0 - x1).natAbs ≤ (y1 - y0).natAbs := by omega
  have base := loopY_eq_chain x0 y0 (y1 - y0) (x0 - x1) (sgn (y1 - y0)) (sgn (x0 - x1))
    (x0 - x1).natAbs (y1 - y0).natAbs (mul_sgn _) (mul_sgn _) (sgn_cases _) han hn
    (y1 - y0).natAbs 0 ((y1 - y0).natAbs + (x0 - x1).natAbs + 1) hn (by omega) (by omega)
  have e1 : x0 - sgn (x0 - x1) * ((x0 - x1).natAbs : Int) = x1 := by
    have hm := mul_sgn (x0 - x1)
    rcases sgn_cases (x0 - x1) with h | h <;> rw [h] <;> rw [h] at hm <;> omega
  have e2 : y0 + ((y1 - y0).natAbs : Int) * sgn (y1 - y0) = y1 := by
    have hm := mul_sgn (y1 - y0)
    rcases sgn_cases (y1 - y0) with h | h <;> rw [h] <;> rw [h] at hm <;> omega
  rw [e1, e2] at base
  simp only [errS, Nat.cast_zero, zero_mul, sub_zero, mul_zero, add_zero] at base
  simp only [linePts]
  rw [if_pos hmaj]
  rw [base]

lemma chainX_length (x0 y0 sa sb : Int) (a n : Nat) :
    ∀ c k, (chainX x0 y0 sa sb a n k c).length = c := by
  intro c
  induction c with
  | zero => intro k; rfl
  | succ c ih =>
    intro k
    rw [chainX]
    simp [ih (k + 1)]

lemma chainX_mem (x0 y0 sa sb : Int) (a n : Nat) :
    ∀ c k q, q ∈ chainX x0 y0 sa sb a n k c ↔
      ∃ j, j < c ∧ q = ptX x0 y0 sa sb a n (k + 1 + j) := by
  intro c
  induction c with
  | zero =>
    intro k q
    rw [chainX]
    simp
  | succ c ih =>
    intro k q
    rw [chainX]
    simp only [List.mem_cons, ih (k + 1)]
    constructor
    · rintro (rfl | ⟨j, hj, rfl⟩)
      · exact ⟨0, by omega, by rw [Nat.add_zero]⟩
      · exact ⟨j + 1, by omega, by rw [show k + 1 + (j + 1) = k + 1 + 1 + j by omega]⟩
    · rintro ⟨j, hj, rfl⟩
      rcases Nat.eq_zero_or_pos j with rfl | hj'
      · left
        rw [Nat.add_zero]
      · right
        exact ⟨j - 1, by omega, by rw [show k + 1 + 1 + (j - 1) = k + 1 + j by omega]⟩

lemma chainY_length (x0 y0 sa sb : Int) (a n : Nat) :
    ∀ c k, (chainY x0 y0 sa sb a n k c).length = c := by
  intro c
  induction c with
  | zero => intro k; rfl
  | succ c ih =>
    intro k
    rw [chainY]
    simp [ih (k + 1)]

lemma chainY_mem (x0 y0 sa sb : Int) (a n : Nat) :
    ∀ c k q, q ∈ chainY x0 y0 sa sb a n k c ↔
      ∃ j, j < c ∧ q = ptY x0 y0 sa sb a n (k + 1 + j) := by
  intro c
  induction c with
  | zero =>
    intro k q
    rw [chainY]
    simp
  | succ c ih =>
    intro k q
    rw [chainY]
    simp only [List.mem_cons, ih (k + 1)]
    constructor
    · rintro (rfl | ⟨j, hj, rfl⟩)
      · exact ⟨0, by omega, by rw [Nat.add_zero]⟩
      · exact ⟨j + 1, by omega, by rw [show k + 1 + (j + 1) = k + 1 + 1 + j by omega]⟩
    · rintro ⟨j, hj, rfl⟩
      rcases Nat.eq_zero_or_pos j with rfl | hj'
      · left
        rw [Nat.add_zero]
      · right
        exact ⟨j - 1, by omega, by rw [show k + 1 + 1 + (j - 1) = k + 1 + j by omega]⟩

lemma sub_natAbs_sgn (x0 x1 : Int) :
    x0 - ((x0 - x1).natAbs : Int) * sgn (x0 - x1) = x1 := by
  have hm := mul_sgn (x0 - x1)
  rcases sgn_cases (x0 - x1) with h | h <;> rw [h] <;> rw [h] at hm <;> omega

lemma sub_sgn_natAbs (x0 x1 : Int) :
    x0 - sgn (x0 - x1) * ((x0 - x1).natAbs : Int) = x1 := by
  rw [mul_comm]
  exact sub_natAbs_sgn x0 x1

lemma add_sgn_natAbs (y0 y1 : Int) :
    y0 + sgn (y1 - y0) * ((y1 - y0).natAbs : Int) = y1 := by
  have hm := mul_sgn (y1 - y0)
  rcases sgn_cases (y1 - y0) with h | h <;> rw [h] <;> rw [h] at hm <;> omega

lemma add_natAbs_sgn (y0 y1 : Int) :
    y0 + ((y1 - y0).natAbs : Int) * sgn (y1 - y0) = y1 := by
  rw [mul_comm]
  exact add_sgn_natAbs y0 y1

lemma linePts_endpoints (x0 y0 x1 y1 : Int) (hne : ¬(x0 = x1 ∧ y0 = y1)) :
    (x0, y0) ∈ linePts x0 y0 x1 y1 ∧ (x1, y1) ∈ linePts x0 y0 x1 y1 := by
  constructor
  · simp [linePts]
  · by_cases hmaj : (y1 - y0).natAbs > (x0 - x1).natAbs
    · have hn : 1 ≤ (y1 - y0).natAbs := by omega
      have han : (x0 - x1).natAbs ≤ (y1 - y0).natAbs := by omega
      rw [linePts_eq_y x0 y0 x1 y1 hmaj]
      apply List.mem_cons_of_mem
      rw [chainY_mem]
      refine ⟨(y1 - y0).natAbs - 1, by omega, ?_⟩
      rw [show 0 + 1 + ((y1 - y0).natAbs - 1) = (y1 - y0).natAbs by omega]
      rw [ptY, errS_top _ _ han hn]
      rw [sub_sgn_natAbs, add_natAbs_sgn]
    · have hn : 1 ≤ (x0 - x1).natAbs := by
        rcases Nat.eq_zero_or_pos (x0 - x1).natAbs with h | h
        · exfalso
          apply hne
          constructor <;> omega
        · exact h
      have han : (y1 - y0).natAbs ≤ (x0 - x1).natAbs := by omega
      rw [linePts_eq_x x0 y0 x1 y1 hmaj hne]
      apply List.mem_cons_of_mem
      rw [chainX_mem]
      refine ⟨(x0 - x1).natAbs - 1, by omega, ?_⟩
      rw [show 0 + 1 + ((x0 - x1).natAbs - 1) = (x0 - x1).natAbs by omega]
      rw [ptX, errS_top _ _ han hn]
      rw [sub_natAbs_sgn, add_sgn_natAbs]

lemma linePts_length_eq (x0 y0 x1 y1 : Int) (hne : ¬(x0 = x1 ∧ y0 = y1)) :
    (linePts x0 y0 x1 y1).length
      = max (x0 - x1).natAbs (y1 - y0).natAbs + 1 := by
  by_cases hmaj : (y1 - y0).natAbs > (x0 - x1).natAbs
  · rw [linePts_eq_y x0 y0 x1 y1 hmaj]
    simp [chainY_length]
    omega
  · rw [linePts_eq_x x0 y0 x1 y1 hmaj hne]
    simp [chainX_length]
    omega

lemma linePts_bbox (x0 y0 x1 y1 : Int) (hne : ¬(x0 = x1 ∧ y0 = y1)) :
    ∀ q ∈ linePts x0 y0 x1 y1,
      min x0 x1 ≤ q.1 ∧ q.1 ≤ max x0 x1 ∧ min y0 y1 ≤ q.2 ∧ q.2 ≤ max y0 y1 := by
  intro q hq
  by_cases hmaj : (y1 - y0).natAbs > (x0 - x1).natAbs
  · have hn : 1 ≤ (y1 - y0).natAbs := by omega
    have han : (x0 - x1).natAbs ≤ (y1 - y0).natAbs := by omega
    rw [linePts_eq_y x0 y0 x1 y1 hmaj] at hq
    rcases List.mem_cons.mp hq with rfl | hq2
    · dsimp only
      omega
    · obtain ⟨j, hj, rfl⟩ := (chainY_mem _ _ _ _ _ _ _ _ _).mp hq2
      rw [show 0 + 1 + j = 1 + j from by omega]
      have hSle := errS_fst_le _ _ han hn (1 + j) (by omega)
      have hex1 := sub_sgn_natAbs x0 x1
      have hey1 := add_natAbs_sgn y0 y1
      rw [ptY]
      dsimp only
      rcases sgn_cases (x0 - x1) with hb | hb <;>
        rcases sgn_cases (y1 - y0) with ha | ha <;>
          rw [hb, ha] <;> rw [hb] at hex1 <;> rw [ha] at hey1 <;> push_cast <;> omega
  · have hn : 1 ≤ (x0 - x1).natAbs := by
      rcases Nat.eq_zero_or_pos (x0 - x1).natAbs with h | h
      · exfalso
        apply hne
        constructor <;> omega
      · exact h
    have han : (y1 - y0).natAbs ≤ (x0 - x1).natAbs := by omega
    rw [linePts_eq_x x0 y0 x1 y1 hmaj hne] at hq
    rcases List.mem_cons.mp hq with rfl | hq2
    · dsimp only
      omega
    · obtain ⟨j, hj, rfl⟩ := (chainX_mem _ _ _ _ _ _ _ _ _).mp hq2
      rw [show 0 + 1 + j = 1 + j from by omega]
      have hSle := errS_fst_le _ _ han hn (1 + j) (by omega)
      have hex1 := sub_natAbs_sgn x0 x1
      have hey1 := add_sgn_natAbs y0 y1
      rw [ptX]
      dsimp only
      rcases sgn_cases (x0 - x1) with hb | hb <;>
        rcases sgn_cases (y1 - y0) with ha | ha <;>
          rw [hb, ha] <;> rw [hb] at hex1 <;> rw [ha] at hey1 <;> push_cast <;> omega

lemma setFlat_rows (m : Matrix) (idx : Int) (v : Nat) : (m.setFlat idx v).rows = m.rows := by
  unfold Matrix.setFlat
  split <;> rfl

lemma setFlat_cols (m : Matrix) (idx : Int) (v : Nat) : (m.setFlat idx v).cols = m.cols := by
  unfold Matrix.setFlat
  split <;> rfl

lemma setFlat_length (m : Matrix) (idx : Int) (v : Nat) :
    (m.setFlat idx v).data.length = m.data.length := by
  unfold Matrix.setFlat
  split
  · simp
  · rfl

lemma flatIndex_inj (cols i j pi2 pj : Nat) (hj : j < cols) (hpj : pj < cols) :
    j + i * cols = pj + pi2 * cols ↔ (pj = j ∧ pi2 = i) := by
  constructor
  · intro h
    have hcols : 0 < cols := by omega
    have h1 : (j + i * cols) % cols = j := by
      rw [Nat.add_mul_mod_self_right, Nat.mod_eq_of_lt hj]
    have h2 : (pj + pi2 * cols) % cols = pj := by
      rw [Nat.add_mul_mod_self_right, Nat.mod_eq_of_lt hpj]
    have hjj : j = pj := by rw [← h1, ← h2, h]
    subst hjj
    have hii : i * cols = pi2 * cols := by omega
    exact ⟨rfl, (Nat.eq_of_mul_eq_mul_right hcols hii).symm⟩
  · rintro ⟨rfl, rfl⟩
    rfl

lemma setFlat_get_in (m : Matrix) (hlen : m.data.length = m.rows * m.cols)
    (px py : Int) (hpx : 0 ≤ px) (hpx2 : px < (m.cols : Int))
    (hpy : 0 ≤ py) (hpy2 : py < (m.rows : Int))
    (i j : Nat) (hi : i < m.rows) (hj : j < m.cols) (v : Nat) :
    (m.setFlat (px + py * (m.cols : Int)) v).get i j
      = if px = (j : Int) ∧ py = (i : Int) then some v else m.get i j := by
  obtain ⟨pj, rfl⟩ : ∃ pj : Nat, px = (pj : Int) :=
    ⟨px.toNat, (Int.toNat_of_nonneg hpx).symm⟩
  obtain ⟨pi2, rfl⟩ : ∃ pi2 : Nat, py = (pi2 : Int) :=
    ⟨py.toNat, (Int.toNat_of_nonneg hpy).symm⟩
  have hpj : pj < m.cols := by exact_mod_cast hpx2
  have hpi : pi2 < m.rows := by exact_mod_cast hpy2
  have hflat : (pj : Int) + (pi2 : Int) * (m.cols : Int)
      = ((pj + pi2 * m.cols : Nat) : Int) := by
    push_cast
    ring
  have hlt : pj + pi2 * m.cols < m.data.length := by
    rw [hlen]
    calc pj + pi2 * m.cols < m.cols + pi2 * m.cols := by omega
    _ = (pi2 + 1) * m.cols := by ring
    _ ≤ m.rows * m.cols := Nat.mul_le_mul_right _ (by omega)
  rw [hflat]
  unfold Matrix.setFlat
  rw [if_pos ⟨Int.natCast_nonneg _, by exact_mod_cast hlt⟩]
  unfold Matrix.get
  simp only [Int.toNat_natCast]
  rw [if_neg (by omega : ¬(m.rows ≤ i ∨ m.cols ≤ j)),
      if_neg (by omega : ¬(m.rows ≤ i ∨ m.cols ≤ j))]
  by_cases hc : pj = j ∧ pi2 = i
  · obtain ⟨rfl, rfl⟩ := hc
    rw [if_pos ⟨rfl, rfl⟩]
    congr 1
    rw [List.getD_eq_getElem?_getD, List.getElem?_set, if_pos rfl, if_pos hlt]
    rfl
  · have hcast : ¬((pj : Int) = (j : Int) ∧ (pi2 : Int) = (i : Int)) := by
      intro hcc
      exact hc ⟨by exact_mod_cast hcc.1, by exact_mod_cast hcc.2⟩
    rw [if_neg hcast]
    have hne : pj + pi2 * m.cols ≠ j + i * m.cols := by
      intro h
      exact hc ((flatIndex_inj m.cols i j pi2 pj hj hpj).mp h.symm)
    congr 1
    rw [List.getD_eq_getElem?_getD, List.getElem?_set, if_neg hne,
        ← List.getD_eq_getElem?_getD]

lemma foldl_setFlat_get (v : Nat) (i j : Nat) :
    ∀ (pts : List (Int × Int)) (m : Matrix),
      m.data.length = m.rows * m.cols →
      (∀ q ∈ pts, 0 ≤ q.1 ∧ q.1 < (m.cols : Int) ∧ 0 ≤ q.2 ∧ q.2 < (m.rows : Int)) →
      i < m.rows → j < m.cols →
      (pts.foldl (fun mm q => mm.setFlat (q.1 + q.2 * (mm.cols : Int)) v) m).get i j
        = if ((j : Int), (i : Int)) ∈ pts then some v else m.get i j := by
  intro pts
  induction pts with
  | nil =>
    intro m _ _ _ _
    simp
  | cons p rest ih =>
    intro m hlen hin hi hj
    rw [List.foldl_cons]
    obtain ⟨hp1, hp2, hp3, hp4⟩ := hin p (List.mem_cons_self ..)
    have hm' : (m.setFlat (p.1 + p.2 * (m.cols : Int)) v).data.length
        = (m.setFlat (p.1 + p.2 * (m.cols : Int)) v).rows
          * (m.setFlat (p.1 + p.2 * (m.cols : Int)) v).cols := by
      rw [setFlat_length, setFlat_rows, setFlat_cols]
      exact hlen
    have hin' : ∀ q ∈ rest, 0 ≤ q.1 ∧
        q.1 < ((m.setFlat (p.1 + p.2 * (m.cols : Int)) v).cols : Int) ∧ 0 ≤ q.2 ∧
        q.2 < ((m.setFlat (p.1 + p.2 * (m.cols : Int)) v).rows : Int) := by
      intro q hq
      rw [setFlat_rows, setFlat_cols]
      exact hin q (List.mem_cons_of_mem _ hq)
    rw [ih (m.setFlat (p.1 + p.2 * (m.cols : Int)) v) hm' hin'
        (by rw [setFlat_rows]; exact hi) (by rw [setFlat_cols]; exact hj)]
    have hset := setFlat_get_in m hlen p.1 p.2 hp1 hp2 hp3 hp4 i j hi hj v
    by_cases hr : ((j : Int), (i : Int)) ∈ rest
    · rw [if_pos hr, if_pos (List.mem_cons_of_mem _ hr)]
    · rw [if_neg hr, hset]
      by_cases hpji : p.1 = (j : Int) ∧ p.2 = (i : Int)
      · rw [if_pos hpji,
            if_pos (List.mem_cons.mpr (Or.inl (Prod.ext hpji.1 hpji.2).symm))]
      · rw [if_neg hpji, if_neg (by
          intro hmem
          rcases List.mem_cons.mp hmem with heq | hmem2
          · exact hpji ⟨by rw [← heq], by rw [← heq]⟩
          · exact hr hmem2)]

lemma ne_pair (x0 y0 x1 y1 : Int) (hne : ((x0, y0) : Int × Int) ≠ (x1, y1)) :
    ¬(x0 = x1 ∧ y0 = y1) := by
  rintro ⟨rfl, rfl⟩
  exact hne rfl

lemma linePts_in_bounds (m : Matrix) (x0 y0 x1 y1 : Int)
    (hx0 : 0 ≤ x0) (hx0c : x0 < (m.cols : Int)) (hy0 : 0 ≤ y0) (hy0r : y0 < (m.rows : Int))
    (hx1 : 0 ≤ x1) (hx1c : x1 < (m.cols : Int)) (hy1 : 0 ≤ y1) (hy1r : y1 < (m.rows : Int))
    (hne : ¬(x0 = x1 ∧ y0 = y1)) :
    ∀ q ∈ linePts x0 y0 x1 y1,
      0 ≤ q.1 ∧ q.1 < (m.cols : Int) ∧ 0 ≤ q.2 ∧ q.2 < (m.rows : Int) := by
  intro q hq
  have hbb := linePts_bbox x0 y0 x1 y1 hne q hq
  omega

lemma drawLine_get (m : Matrix) (x0 y0 x1 y1 : Int) (v : Nat)
    (hlen : m.data.length = m.rows * m.cols)
    (hx0 : 0 ≤ x0) (hx0c : x0 < (m.cols : Int)) (hy0 : 0 ≤ y0) (hy0r : y0 < (m.rows : Int))
    (hx1 : 0 ≤ x1) (hx1c : x1 < (m.cols : Int)) (hy1 : 0 ≤ y1) (hy1r : y1 < (m.rows : Int))
    (hne : ¬(x0 = x1 ∧ y0 = y1)) (i j : Nat) (hi : i < m.rows) (hj : j < m.cols) :
    (m.drawLine x0 y0 x1 y1 v).get i j
      = if ((j : Int), (i : Int)) ∈ linePts x0 y0 x1 y1 then some v else m.get i j := by
  unfold Matrix.drawLine
  exact foldl_setFlat_get v i j (linePts x0 y0 x1 y1) m hlen
    (linePts_in_bounds m x0 y0 x1 y1 hx0 hx0c hy0 hy0r hx1 hx1c hy1 hy1r hne) hi hj

/-! ### Claim theorems -/

/-- C1 (counterexample): the command `G1 X0` supplies X with value exactly 0,
yet `moveE` leaves the cursor at the carried-over raster position 7 instead
of moving it to `round(0*10) = 0` — the `ax._x != 0` test conflates a
supplied zero with an absent letter. -/
theorem C1_counterexample :
    (getAxes [getCmdId ['X', '0']]).x = 0 ∧
    (c1State.moveE (getAxes [getCmdId ['X', '0']])).x = 7 := by
  have hax : getAxes [getCmdId ['X', '0']] = Axes.zero := by
    simp +decide [getCmdId, stofQ, natOfDigits, isDig, getAxes, Axes.zero]
  rw [hax]
  refine ⟨rfl, ?_⟩
  rw [moveE_x c1State Axes.zero rfl]
  norm_num [Axes.zero, c1State]

/-- C1 (amended): `moveE`/`move` treat a zero coordinate value as absent:
for a nonzero value the new current coordinate is `round(value*10)`; for a
zero value (which includes a genuinely absent letter, since absent letters
default to 0 in `Axes`) the coordinate is set to the stored previous
coordinate of that axis, so "move to X=0" is indistinguishable from "X not
specified". -/
theorem C1_amended (s : MatrixMotor) (ax : Axes) (hw : s.isWork = true) :
    (s.moveE ax).x = (if ax.x ≠ 0 then cppRound (ax.x * 10) else s.prevX) ∧
    (s.moveE ax).y = (if ax.y ≠ 0 then cppRound (ax.y * 10) else s.prevY) ∧
    (s.move ax).x = (if ax.x ≠ 0 then cppRound (ax.x * 10) else s.prevX) ∧
    (s.move ax).y = (if ax.y ≠ 0 then cppRound (ax.y * 10) else s.prevY) :=
  ⟨moveE_x s ax hw, moveE_y s ax hw, move_x s ax hw, move_y s ax hw⟩

/-- C1 (witness): at `X = 1/2` the cursor moves to raster coordinate 5. -/
theorem C1_witness : (tinyMotor.moveE ⟨1/2, 0, 0, 0, 0⟩).x = 5 := by
  rw [(C1_amended tinyMotor ⟨1/2, 0, 0, 0, 0⟩ rfl).1,
      if_pos (by norm_num : ((⟨1/2, 0, 0, 0, 0⟩ : Axes).x ≠ 0))]
  exact cppRound_eq_of_cast _ 5 (by norm_num)

/-- C2 (counterexample): the command `G1 Z0` carries a non-absent Z
parameter, yet no layer artifact is flushed (`ax._z != 0` conflates a
supplied zero with absence); and for `G1 Z0.26` the emitted name tag is the
*rounded* value 0.3, not the truncation 0.2 of the Z value. -/
theorem C2_counterexample :
    (tinyMotor.moveE (getAxes [getCmdId ['Z', '0']])).layers = [] ∧
    (tinyMotor.moveE (getAxes [getCmdId ['Z', '0', '.', '2', '6']])).layers.map
      Layer.tag = [3/10] := by
  have h1 : getAxes [getCmdId ['Z', '0']] = Axes.zero := by
    simp +decide [getCmdId, stofQ, natOfDigits, isDig, getAxes, Axes.zero]
  have h2 : getAxes [getCmdId ['Z', '0', '.', '2', '6']] =
      { Axes.zero with z := 13/50 } := by
    simp +decide [getCmdId, stofQ, natOfDigits, isDig, getAxes, Axes.zero]
    norm_num
  constructor
  · rw [h1, moveE_layers tinyMotor Axes.zero rfl]
    norm_num [Axes.zero, tinyMotor]
  · rw [h2, moveE_layers tinyMotor _ rfl]
    have h3 : cppRound ((13 : ℚ)/5) = 3 := by
      apply cppRound_pos_eval <;> norm_num
    norm_num [Axes.zero, tinyMotor, h3]

/-- C2 (amended): a motion command flushes a layer artifact exactly when its
Z value is nonzero (a supplied `Z0` is conflated with an absent Z and
flushes nothing): the artifact's index is the running counter, its name tag
is the Z value *rounded* to one decimal place, its content is the canvas at
command start, the counter is incremented and never otherwise changed, and
the flush clears the canvas in place. -/
theorem C2_amended (s : MatrixMotor) (ax : Axes) (hw : s.isWork = true) :
    (ax.z ≠ 0 →
      (s.moveE ax).layers =
        s.layers ++ [⟨s.layerCounter, (cppRound (ax.z * 10) : ℚ) / 10, s.m⟩] ∧
      (s.moveE ax).layerCounter = s.layerCounter + 1 ∧
      (s.move ax).layers =
        s.layers ++ [⟨s.layerCounter, (cppRound (ax.z * 10) : ℚ) / 10, s.m⟩] ∧
      (s.move ax).layerCounter = s.layerCounter + 1) ∧
    (ax.z = 0 →
      (s.moveE ax).layers = s.layers ∧
      (s.moveE ax).layerCounter = s.layerCounter ∧
      (s.move ax).layers = s.layers ∧
      (s.move ax).layerCounter = s.layerCounter) ∧
    (s.saveLayer ax.z).m = s.m.clear := by
  refine ⟨fun hz => ?_, fun hz => ?_, by simp [MatrixMotor.saveLayer]⟩
  · rw [moveE_layers s ax hw, move_layers s ax hw, moveE_counter s ax hw,
        move_counter s ax hw]
    simp [hz]
  · rw [moveE_layers s ax hw, move_layers s ax hw, moveE_counter s ax hw,
        move_counter s ax hw]
    simp [hz]

/-- C2 (witness): a single `Z = 1/5` move on the fresh small state flushes
exactly one artifact with index 0 and tag `round(2)/10 = 0.2`. -/
theorem C2_witness :
    (tinyMotor.moveE ⟨0, 0, 1/5, 0, 0⟩).layers =
      [⟨0, (cppRound ((⟨0, 0, 1/5, 0, 0⟩ : Axes).z * 10) : ℚ) / 10, tinyMotor.m⟩] :=
  ((C2_amended tinyMotor ⟨0, 0, 1/5, 0, 0⟩ rfl).1 (by norm_num)).1

/-- C4 (code bug): after `moveE (X=0.3, Y=0.2)` followed by the
non-degenerate `moveE (X=0.5)` (Y absent), the current Y raster coordinate
is 2 but the stored previous Y is 5 — `setting` writes the freshly assigned
`_prevX` into `_prevY` when `ax._y == 0` (the `: _prevX` fallback on the
`_prevY` line), instead of the new current position required by the claim. -/
theorem C4_code_bug :
    ((tinyMotor.moveE ⟨3/10, 1/5, 0, 0, 0⟩).moveE ⟨1/2, 0, 0, 0, 0⟩).y = 2 ∧
    ((tinyMotor.moveE ⟨3/10, 1/5, 0, 0, 0⟩).moveE ⟨1/2, 0, 0, 0, 0⟩).prevY = 5 ∧
    ((tinyMotor.moveE ⟨3/10, 1/5, 0, 0, 0⟩).moveE ⟨1/2, 0, 0, 0, 0⟩).prevY ≠
      ((tinyMotor.moveE ⟨3/10, 1/5, 0, 0, 0⟩).moveE ⟨1/2, 0, 0, 0, 0⟩).y := by
  have e1 : cppRound ((3 : ℚ)) = 3 := cppRound_eq_of_cast _ 3 (by norm_num)
  have e2 : cppRound ((2 : ℚ)) = 2 := cppRound_eq_of_cast _ 2 (by norm_num)
  have e3 : cppRound ((5 : ℚ)) = 5 := cppRound_eq_of_cast _ 5 (by norm_num)
  have hprev1 := moveE_prev_of_ne tinyMotor ⟨3/10, 1/5, 0, 0, 0⟩ rfl
    (by norm_num [e1, tinyMotor])
  have hw1 : (tinyMotor.moveE ⟨3/10, 1/5, 0, 0, 0⟩).isWork = true :=
    moveE_isWork tinyMotor _ rfl
  have hpx1 : (tinyMotor.moveE ⟨3/10, 1/5, 0, 0, 0⟩).prevX = 3 := by
    rw [hprev1.1]
    norm_num [e1, tinyMotor]
  have hpy1 : (tinyMotor.moveE ⟨3/10, 1/5, 0, 0, 0⟩).prevY = 2 := by
    rw [hprev1.2]
    norm_num [e2]
  have hprev2 := moveE_prev_of_ne (tinyMotor.moveE ⟨3/10, 1/5, 0, 0, 0⟩)
    ⟨1/2, 0, 0, 0, 0⟩ hw1 (by norm_num [e3, hpx1])
  have hy2 : ((tinyMotor.moveE ⟨3/10, 1/5, 0, 0, 0⟩).moveE ⟨1/2, 0, 0, 0, 0⟩).y = 2 := by
    rw [moveE_y _ _ hw1]
    norm_num [hpy1]
  have hpy2 : ((tinyMotor.moveE ⟨3/10, 1/5, 0, 0, 0⟩).moveE
      ⟨1/2, 0, 0, 0, 0⟩).prevY = 5 := by
    rw [hprev2.2]
    norm_num [e3]
  refine ⟨hy2, hpy2, ?_⟩
  rw [hy2, hpy2]
  decide

/-- C8 (counterexample): `G1 Z0.2` with X and Y absent is a zero-length move
(the resulting raster position equals the stored previous position), yet it
mutates the canvas: the flush triggered by the nonzero Z clears the painted
sample. -/
theorem C8_counterexample :
    (c8State.moveE (getAxes [getCmdId ['Z', '0', '.', '2']])).x = c8State.prevX ∧
    (c8State.moveE (getAxes [getCmdId ['Z', '0', '.', '2']])).y = c8State.prevY ∧
    (c8State.moveE (getAxes [getCmdId ['Z', '0', '.', '2']])).m ≠ c8State.m := by
  have hax : getAxes [getCmdId ['Z', '0', '.', '2']] = { Axes.zero with z := 1/5 } := by
    simp +decide [getCmdId, stofQ, natOfDigits, isDig, getAxes, Axes.zero]
    norm_num
  rw [hax]
  have hd := moveE_degenerate c8State { Axes.zero with z := 1/5 } rfl
    (by norm_num [Axes.zero, c8State]) (by norm_num [Axes.zero, c8State])
  refine ⟨hd.2.2.1, hd.2.2.2.1, ?_⟩
  rw [hd.2.2.2.2, if_pos (by norm_num [Axes.zero] : ({ Axes.zero with z := 1/5 } : Axes).z ≠ 0)]
  decide

/-- C8 (amended): a zero-length move draws no line, leaves the stored
previous position and the current position at the stored point, and leaves
the canvas untouched when its Z value is zero; but when it carries a nonzero
Z the layer flush still runs and clears the canvas in place. -/
theorem C8_amended (s : MatrixMotor) (ax : Axes) (hw : s.isWork = true)
    (hx : (if ax.x ≠ 0 then cppRound (ax.x * 10) else s.prevX) = s.prevX)
    (hy : (if ax.y ≠ 0 then cppRound (ax.y * 10) else s.prevY) = s.prevY) :
    (s.moveE ax).prevX = s.prevX ∧ (s.moveE ax).prevY = s.prevY ∧
    (s.moveE ax).x = s.prevX ∧ (s.moveE ax).y = s.prevY ∧
    (ax.z = 0 → (s.moveE ax).m = s.m) ∧
    (ax.z ≠ 0 → (s.moveE ax).m = s.m.clear) ∧
    (s.move ax).prevX = s.prevX ∧ (s.move ax).prevY = s.prevY := by
  have h1 := moveE_degenerate s ax hw hx hy
  have h2 := move_degenerate s ax hw hx hy
  refine ⟨h1.1, h1.2.1, h1.2.2.1, h1.2.2.2.1, fun hz => ?_, fun hz => ?_, h2.1, h2.2.1⟩
  · rw [h1.2.2.2.2]
    simp [hz]
  · rw [h1.2.2.2.2]
    simp [hz]

/-- C8 (witness): a plain degenerate move (all axes zero) on the small
painted state changes nothing. -/
theorem C8_witness :
    (c8State.moveE Axes.zero).prevX = c8State.prevX ∧
    (c8State.moveE Axes.zero).m = c8State.m := by
  have h := C8_amended c8State Axes.zero rfl (by norm_num [Axes.zero])
    (by norm_num [Axes.zero])
  exact ⟨h.1, h.2.2.2.2.1 rfl⟩

/-- C9 (counterexample): a bare `Z` token parses to the `FLT_MIN` sentinel,
and downstream that sentinel is *not* treated as absence: it triggers a
layer flush, while an actually absent Z flushes nothing; likewise a bare `X`
moves the cursor to raster 0 (`round(FLT_MIN*10) = 0`) instead of carrying
the previous position 7. -/
theorem C9_counterexample :
    (tinyMotor.moveE (getAxes [getCmdId ['Z']])).layers.length = 1 ∧
    (tinyMotor.moveE (getAxes [])).layers.length = 0 ∧
    (c1State.moveE (getAxes [getCmdId ['X']])).x = 0 ∧ c1State.prevX = 7 := by
  have hz : getAxes [getCmdId ['Z']] = { Axes.zero with z := fltMin } := by
    simp +decide [getCmdId, getAxes, Axes.zero]
  have hx : getAxes [getCmdId ['X']] = { Axes.zero with x := fltMin } := by
    simp +decide [getCmdId, getAxes, Axes.zero]
  have hmin : (fltMin : ℚ) ≠ 0 := by norm_num [fltMin]
  have hr : cppRound (fltMin * 10) = 0 := by
    apply cppRound_pos_eval <;> norm_num [fltMin]
  refine ⟨?_, ?_, ?_, rfl⟩
  · rw [hz, moveE_layers tinyMotor _ rfl]
    simp [Axes.zero, hmin, tinyMotor]
  · rw [show getAxes [] = Axes.zero from rfl, moveE_layers tinyMotor _ rfl]
    simp [Axes.zero, tinyMotor]
  · rw [hx, moveE_x c1State _ rfl]
    simp [Axes.zero, hmin, hr]

/-- C9 (amended): the parser does yield the sentinel `FLT_MIN` (distinct
from numeric zero) for a bare parameter letter, but downstream consumers
compare values against zero, so a bare letter behaves as *present* with the
sentinel value: a bare X/Y moves the cursor to `round(FLT_MIN*10) = 0` and a
bare Z triggers a layer flush — the opposite of absent-letter handling. -/
theorem C9_amended :
    (∀ c : Char, getCmdId [c] = (c, fltMin)) ∧
    fltMin ≠ 0 ∧
    cppRound (fltMin * 10) = 0 ∧
    (∀ s : MatrixMotor, s.isWork = true →
      (s.moveE (getAxes [('Z', fltMin)])).layers.length = s.layers.length + 1) ∧
    (∀ s : MatrixMotor, s.isWork = true →
      (s.moveE (getAxes [('X', fltMin)])).x = 0) := by
  have hmin : (fltMin : ℚ) ≠ 0 := by norm_num [fltMin]
  have hr : cppRound (fltMin * 10) = 0 := by
    apply cppRound_pos_eval <;> norm_num [fltMin]
  have hzax : getAxes [('Z', fltMin)] = { Axes.zero with z := fltMin } := by
    simp +decide [getAxes, Axes.zero]
  have hxax : getAxes [('X', fltMin)] = { Axes.zero with x := fltMin } := by
    simp +decide [getAxes, Axes.zero]
  refine ⟨fun c => rfl, hmin, hr, fun s hw => ?_, fun s hw => ?_⟩
  · rw [hzax, moveE_layers s _ hw]
    simp [Axes.zero, hmin]
  · rw [hxax, moveE_x s _ hw]
    simp [Axes.zero, hmin, hr]

/-- C9 (witness): the bare-letter behavior at `Z` on the small state. -/
theorem C9_witness :
    getCmdId ['Z'] = ('Z', fltMin) ∧
    (tinyMotor.moveE (getAxes [('Z', fltMin)])).layers.length =
      tinyMotor.layers.length + 1 :=
  ⟨C9_amended.1 'Z', C9_amended.2.2.2.1 tinyMotor rfl⟩

/-! ### Dispatcher lemmas for C3 -/

lemma callCode_isSome (cmd : List Char) (pairs : List (Char × ℚ)) (s : MatrixMotor) :
    (callCode cmd pairs s).isSome = recognized cmd := by
  unfold callCode recognized
  by_cases h1 : cmd = ['G', '0']
  · rw [if_pos h1, if_pos h1]
    rfl
  rw [if_neg h1, if_neg h1]
  by_cases h2 : cmd = ['G', '1']
  · rw [if_pos h2, if_pos h2]
    rfl
  rw [if_neg h2, if_neg h2]
  by_cases h3 : cmd = ['G', '2', '8']
  · rw [if_pos h3, if_pos h3]
    rfl
  rw [if_neg h3, if_neg h3]
  by_cases h4 : cmd = ['G', '9', '0']
  · rw [if_pos h4, if_pos h4]
    rfl
  rw [if_neg h4, if_neg h4]
  by_cases h5 : cmd = ['G', '9', '1']
  · rw [if_pos h5, if_pos h5]
    rfl
  rw [if_neg h5, if_neg h5]
  by_cases h6 : cmd = ['G', '9', '2']
  · rw [if_pos h6, if_pos h6]
    rfl
  rw [if_neg h6, if_neg h6]
  by_cases h7 : cmd = ['M', '8', '2']
  · rw [if_pos h7, if_pos h7]
    rfl
  rw [if_neg h7, if_neg h7]
  by_cases h8 : cmd = ['M', '8', '4']
  · rw [if_pos h8, if_pos h8]
    rfl
  rw [if_neg h8, if_neg h8]
  by_cases h9 : cmd = ['M', '1', '0', '4']
  · rw [if_pos h9, if_pos h9]
    rfl
  rw [if_neg h9, if_neg h9]
  by_cases h10 : cmd = ['M', '1', '0', '5']
  · rw [if_pos h10, if_pos h10]
    rfl
  rw [if_neg h10, if_neg h10]
  by_cases h11 : cmd = ['M', '1', '0', '6']
  · rw [if_pos h11, if_pos h11]
    rfl
  rw [if_neg h11, if_neg h11]
  by_cases h12 : cmd = ['M', '1', '0', '7']
  · rw [if_pos h12, if_pos h12]
    rfl
  rw [if_neg h12, if_neg h12]
  by_cases h13 : cmd = ['M', '1', '0', '9']
  · rw [if_pos h13, if_pos h13]
    rfl
  rw [if_neg h13, if_neg h13]
  by_cases h14 : cmd = ['M', '1', '4', '0']
  · rw [if_pos h14, if_pos h14]
    rfl
  rw [if_neg h14, if_neg h14]
  by_cases h15 : cmd = ['M', '1', '9', '0']
  · rw [if_pos h15, if_pos h15]
    rfl
  rw [if_neg h15, if_neg h15]
  rfl

lemma recognized_some (cmd : List Char) (pairs : List (Char × ℚ)) (s : MatrixMotor)
    (h : recognized cmd = true) : ∃ s2, callCode cmd pairs s = some s2 := by
  have := callCode_isSome cmd pairs s
  rw [h] at this
  exact Option.isSome_iff_exists.mp this

lemma unrecognized_none (cmd : List Char) (pairs : List (Char × ℚ)) (s : MatrixMotor)
    (h : recognized cmd = false) : callCode cmd pairs s = none := by
  have := callCode_isSome cmd pairs s
  rw [h] at this
  exact Option.not_isSome_iff_eq_none.mp (by simp [this])

lemma bytesOf_nil : bytesOf [] = 0 := rfl

lemma bytesOf_cons (l : List Char) (ls : List (List Char)) :
    bytesOf (l :: ls) = (l.length + 1) + bytesOf ls := by
  simp [bytesOf]

lemma lineOk_false_parts (l : List Char) (h : lineOk l = false) :
    (stripComment l).isEmpty = false ∧ recognized (lineCmd l) = false := by
  unfold lineOk at h
  exact ⟨(Bool.or_eq_false_iff.mp h).1, (Bool.or_eq_false_iff.mp h).2⟩

lemma makeLoop_ok (total : Nat) :
    ∀ (lines : List (List Char)) (cur : Nat) (s : MatrixMotor),
      (∀ l ∈ lines, lineOk l = true) →
      (makeLoop total lines cur s).status = 0 ∧
      (makeLoop total lines cur s).report = none := by
  intro lines
  induction lines with
  | nil => exact fun cur s _ => ⟨rfl, rfl⟩
  | cons line rest ih =>
    intro cur s h
    have hline : lineOk line = true := h line (List.mem_cons_self ..)
    have hrest : ∀ l ∈ rest, lineOk l = true :=
      fun l hl => h l (List.mem_cons_of_mem _ hl)
    unfold makeLoop
    cases hemp : (stripComment line).isEmpty with
    | true =>
      simp only [hemp, if_true]
      exact ih _ _ hrest
    | false =>
      simp only [hemp, Bool.false_eq_true, if_false]
      have hrec : recognized (lineCmd line) = true := by
        unfold lineOk at hline
        rcases Bool.or_eq_true_iff.mp hline with h1 | h2
        · rw [hemp] at h1
          exact absurd h1 (by simp)
        · exact h2
      unfold lineCmd at hrec
      obtain ⟨s2, hs2⟩ := recognized_some _
        (((cppSplit (stripComment line)).drop 1).map getCmdId) s hrec
      rw [hs2]
      exact ih _ _ hrest

lemma makeLoop_prefix (total : Nat) :
    ∀ (pre : List (List Char)) (cur : Nat) (s : MatrixMotor),
      (∀ l ∈ pre, lineOk l = true) →
      ∃ s2, ∀ rest, makeLoop total (pre ++ rest) cur s
        = makeLoop total rest (cur + bytesOf pre) s2 := by
  intro pre
  induction pre with
  | nil => exact fun cur s _ => ⟨s, fun rest => by simp [bytesOf_nil]⟩
  | cons line pre' ih =>
    intro cur s h
    have hline : lineOk line = true := h line (List.mem_cons_self ..)
    have hpre' : ∀ l ∈ pre', lineOk l = true :=
      fun l hl => h l (List.mem_cons_of_mem _ hl)
    have harith : cur + line.length + 1 + bytesOf pre' = cur + bytesOf (line :: pre') := by
      rw [bytesOf_cons]
      omega
    cases hemp : (stripComment line).isEmpty with
    | true =>
      obtain ⟨s2, hs2⟩ := ih (cur + line.length + 1) s hpre'
      refine ⟨s2, fun rest => ?_⟩
      have step : makeLoop total ((line :: pre') ++ rest) cur s
          = makeLoop total (pre' ++ rest) (cur + line.length + 1) s := by
        rw [List.cons_append, makeLoop]
        simp only [hemp, if_true]
      rw [step, hs2 rest, harith]
    | false =>
      have hrec : recognized (lineCmd line) = true := by
        unfold lineOk at hline
        rcases Bool.or_eq_true_iff.mp hline with h1 | h2
        · rw [hemp] at h1
          exact absurd h1 (by simp)
        · exact h2
      unfold lineCmd at hrec
      obtain ⟨sc, hsc⟩ := recognized_some _
        (((cppSplit (stripComment line)).drop 1).map getCmdId) s hrec
      obtain ⟨s2, hs2⟩ := ih (cur + line.length + 1) sc hpre'
      refine ⟨s2, fun rest => ?_⟩
      have step : makeLoop total ((line :: pre') ++ rest) cur s
          = makeLoop total (pre' ++ rest) (cur + line.length + 1) sc := by
        rw [List.cons_append, makeLoop]
        simp only [hemp, Bool.false_eq_true, if_false]
        rw [hsc]
      rw [step, hs2 rest, harith]

lemma makeLoop_bad (total : Nat) (bad : List Char) (rest : List (List Char))
    (cur : Nat) (s : MatrixMotor) (h : lineOk bad = false) :
    makeLoop total (bad :: rest) cur s =
      ⟨-1, some (reportFrac total (cur + bad.length + 1), lineCmd bad), s⟩ := by
  obtain ⟨hemp, hrec⟩ := lineOk_false_parts bad h
  unfold makeLoop
  simp only [hemp, Bool.false_eq_true, if_false]
  unfold lineCmd at hrec
  rw [unrecognized_none _ (((cppSplit (stripComment bad)).drop 1).map getCmdId) s hrec]
  rfl

/-- C3 (counterexample): the reported fraction is *not* "bytes processed
divided by total byte length, rounded to two decimal places".  On a 30-byte
file whose consumed lines are `G1 X1` and `G999` — 11 bytes including one
newline each — the claim's quantity is `round(11/30*100)/100 = 0.37`, but
the run reports `0.40 = round(12/30*100)/100`: the dispatch loop's first
iteration runs on the initial empty `strReaded` and counts one phantom
byte, so the printed fraction uses `1 +` the bytes actually processed. -/
theorem C3_counterexample :
    (Arbitr.make 30 [['G', '1', ' ', 'X', '1'], ['G', '9', '9', '9']] tinyMotor).status
      = -1 ∧
    (Arbitr.make 30 [['G', '1', ' ', 'X', '1'], ['G', '9', '9', '9']] tinyMotor).report
      = some (2/5, ['G', '9', '9', '9']) ∧
    bytesOf [['G', '1', ' ', 'X', '1'], ['G', '9', '9', '9']] = 11 ∧
    reportFrac 30 11 = 37/100 ∧
    (2 : ℚ)/5 ≠ 37/100 := by
  obtain ⟨s2, hs2⟩ := makeLoop_prefix 30 [['G', '1', ' ', 'X', '1']] 1 tinyMotor (by decide)
  have hrun : Arbitr.make 30 [['G', '1', ' ', 'X', '1'], ['G', '9', '9', '9']] tinyMotor
      = makeLoop 30 [['G', '9', '9', '9']] (1 + bytesOf [['G', '1', ' ', 'X', '1']]) s2 := by
    have h := hs2 [['G', '9', '9', '9']]
    simp only [List.cons_append, List.nil_append] at h
    exact h
  have hbad := makeLoop_bad 30 ['G', '9', '9', '9'] []
    (1 + bytesOf [['G', '1', ' ', 'X', '1']]) s2 (by decide)
  have hcur : 1 + bytesOf [['G', '1', ' ', 'X', '1']] + ['G', '9', '9', '9'].length + 1
      = 12 := by decide
  have hfrac12 : reportFrac 30 12 = 2/5 := by
    unfold reportFrac
    rw [cppRound_eq_of_cast _ 40 (by norm_num)]
    norm_num
  have hfrac11 : reportFrac 30 11 = 37/100 := by
    unfold reportFrac
    rw [cppRound_pos_eval _ 37 (by norm_num) (by norm_num) (by norm_num)]
    norm_num
  refine ⟨?_, ?_, by decide, hfrac11, by norm_num⟩
  · rw [hrun, hbad]
  · rw [hrun, hbad]
    dsimp only
    rw [hcur, hfrac12, show lineCmd ['G', '9', '9', '9'] = ['G', '9', '9', '9'] from by decide]

/-- C3 (amended): a run over lines none of which is skipped-or-unknown
completes with status 0 and no report; while on the first line with an
unrecognised mnemonic the run aborts at that line — the outcome is
independent of all later lines — with status -1, reporting the offending
mnemonic and the fraction `round(cur/total*100)/100` where `cur` is one
more than the bytes processed: `size+1` bytes per consumed line plus one
phantom byte from the loop's initial iteration on the empty pre-`getline`
string. -/
theorem C3_thm (total : Nat) (s : MatrixMotor) :
    (∀ lines, (∀ l ∈ lines, lineOk l = true) →
      (Arbitr.make total lines s).status = 0 ∧
      (Arbitr.make total lines s).report = none) ∧
    (∀ pre bad post, (∀ l ∈ pre, lineOk l = true) → lineOk bad = false →
      Arbitr.make total (pre ++ bad :: post) s = Arbitr.make total (pre ++ [bad]) s ∧
      (Arbitr.make total (pre ++ bad :: post) s).status = -1 ∧
      (Arbitr.make total (pre ++ bad :: post) s).report =
        some (reportFrac total (1 + bytesOf pre + bad.length + 1), lineCmd bad)) := by
  constructor
  · exact fun lines h => makeLoop_ok total lines 1 s h
  · intro pre bad post hpre hbad
    obtain ⟨s2, hs2⟩ := makeLoop_prefix total pre 1 s hpre
    unfold Arbitr.make
    rw [hs2 (bad :: post), hs2 [bad], makeLoop_bad total bad post _ s2 hbad,
        makeLoop_bad total bad [] _ s2 hbad]
    exact ⟨rfl, rfl, rfl⟩

/-- C3 (witness): the toolpath `G1 X1 / G999 / M84` aborts on `G999` with
status -1 and the report `(round(12/30*100)/100, G999)`; the trailing `M84`
is never dispatched. -/
theorem C3_witness :
    Arbitr.make 30 [['G', '1', ' ', 'X', '1'], ['G', '9', '9', '9'], ['M', '8', '4']]
        tinyMotor =
      Arbitr.make 30 [['G', '1', ' ', 'X', '1'], ['G', '9', '9', '9']] tinyMotor ∧
    (Arbitr.make 30 [['G', '1', ' ', 'X', '1'], ['G', '9', '9', '9'], ['M', '8', '4']]
        tinyMotor).status = -1 ∧
    (Arbitr.make 30 [['G', '1', ' ', 'X', '1'], ['G', '9', '9', '9'], ['M', '8', '4']]
        tinyMotor).report = some (reportFrac 30 12, ['G', '9', '9', '9']) := by
  have h := (C3_thm 30 tinyMotor).2 [['G', '1', ' ', 'X', '1']] ['G', '9', '9', '9']
    [['M', '8', '4']] (by decide) (by decide)
  simp only [List.cons_append, List.nil_append] at h
  refine ⟨h.1, h.2.1, ?_⟩
  rw [h.2.2]
  rw [show (1 + bytesOf [['G', '1', ' ', 'X', '1']] + ['G', '9', '9', '9'].length + 1)
        = 12 by decide,
      show lineCmd ['G', '9', '9', '9'] = ['G', '9', '9', '9'] by decide]

/-- C10 (confirmed): after `off()`, `moveE` and `move` are identities on the
motor state — canvas, current position, stored previous position and layer
list all unchanged, no artifact flushed — and `on()` restores exactly the
state with the work flag set (so processing resumes as if never switched
off). -/
theorem C10_thm (s : MatrixMotor) (ax : Axes) :
    s.off.moveE ax = s.off ∧ s.off.move ax = s.off ∧
    (s.off.moveE ax).m = s.m ∧ (s.off.moveE ax).layers = s.layers ∧
    (s.off.moveE ax).x = s.x ∧ (s.off.moveE ax).y = s.y ∧
    (s.off.moveE ax).prevX = s.prevX ∧ (s.off.moveE ax).prevY = s.prevY ∧
    s.off.on = s.on := by
  have h1 : s.off.moveE ax = s.off := moveE_not_work _ _ rfl
  have h2 : s.off.move ax = s.off := move_not_work _ _ rfl
  rw [h1, h2]
  exact ⟨rfl, rfl, rfl, rfl, rfl, rfl, rfl, rfl, rfl⟩

/-- C5 (counterexample): `drawLine` performs no bounds check: called with the
out-of-bounds start coordinate `(-1, 1)` on a 5×5 canvas, the raw store at
flat index `-1 + 1*5 = 4` silently lands on the unrelated in-bounds sample
(row 0, column 4) — the write wraps to another sample instead of being
detected as a fatal error. -/
theorem C5_counterexample :
    ((Matrix.init 5 5).drawLine (-1) 1 1 1 255).get 0 4 = some 255 ∧
    (Matrix.init 5 5).get 0 4 = some 0 := by
  constructor <;> decide

/-- C5 (amended): element access through `Matrix::operator()` is explicitly
bounds-checked (out-of-range indices throw `OutOfRange`), but the raster
writes of `drawLine` are raw `matrix[x + y*cols]` stores with no check: an
out-of-bounds pixel coordinate wraps to a different in-bounds sample. -/
theorem C5_amended (m : Matrix) (i j : Nat) (h : m.rows ≤ i ∨ m.cols ≤ j) :
    m.get i j = none ∧
    ((Matrix.init 5 5).drawLine (-1) 1 1 1 255).get 0 4 = some 255 := by
  constructor
  · unfold Matrix.get
    rw [if_pos h]
  · decide

/-- C5 (witness): reading row 5 of a 2×2 canvas is rejected. -/
theorem C5_witness : (Matrix.init 2 2).get 5 0 = none :=
  (C5_amended (Matrix.init 2 2) 5 0 (Or.inl (by decide))).1

/-- C6 (confirmed): for in-bounds distinct endpoints, `drawLine` sets exactly
the samples of the discrete line `linePts` (the point set generated by the
source's own octant-stepping error-accumulator algorithm) to the given
intensity and modifies no other sample; the discrete line contains both
endpoints; and on the concrete instances it is the 6 horizontal samples
`(0,0)…(5,0)` resp. the 5 diagonal samples `(0,0)…(4,4)`. -/
theorem C6_thm (m : Matrix) (x0 y0 x1 y1 : Int) (c : Nat)
    (hlen : m.data.length = m.rows * m.cols)
    (hx0 : 0 ≤ x0) (hx0c : x0 < (m.cols : Int)) (hy0 : 0 ≤ y0) (hy0r : y0 < (m.rows : Int))
    (hx1 : 0 ≤ x1) (hx1c : x1 < (m.cols : Int)) (hy1 : 0 ≤ y1) (hy1r : y1 < (m.rows : Int))
    (hne : ((x0, y0) : Int × Int) ≠ (x1, y1)) :
    (∀ i j, i < m.rows → j < m.cols →
      (m.drawLine x0 y0 x1 y1 c).get i j
        = if ((j : Int), (i : Int)) ∈ linePts x0 y0 x1 y1 then some c else m.get i j) ∧
    (x0, y0) ∈ linePts x0 y0 x1 y1 ∧ (x1, y1) ∈ linePts x0 y0 x1 y1 ∧
    linePts 0 0 5 0 = [(0, 0), (1, 0), (2, 0), (3, 0), (4, 0), (5, 0)] ∧
    linePts 0 0 4 4 = [(0, 0), (1, 1), (2, 2), (3, 3), (4, 4)] := by
  have hne2 := ne_pair x0 y0 x1 y1 hne
  refine ⟨fun i j hi hj => drawLine_get m x0 y0 x1 y1 c hlen hx0 hx0c hy0 hy0r
      hx1 hx1c hy1 hy1r hne2 i j hi hj,
    (linePts_endpoints x0 y0 x1 y1 hne2).1, (linePts_endpoints x0 y0 x1 y1 hne2).2,
    by decide, by decide⟩

/-- C6 (witness): the horizontal line `(0,0)–(5,0)` paints sample (0,3). -/
theorem C6_witness :
    ((Matrix.init 8 8).drawLine 0 0 5 0 255).get 0 3 = some 255 := by
  have h := (C6_thm (Matrix.init 8 8) 0 0 5 0 255 (by decide) (by decide) (by decide)
    (by decide) (by decide) (by decide) (by decide) (by decide) (by decide)
    (by decide)).1 0 3 (by decide) (by decide)
  rw [h, if_pos (by decide)]

/-- C7 (counterexample): rasterizing `(0,0)–(5,1)` and its reverse paints
different sample sets on an 8×8 canvas: the forward line steps the minor
axis at the first opportunity and paints `(1,1)`, the reverse line paints
`(1,0)` there instead. -/
theorem C7_counterexample :
    (Matrix.init 8 8).drawLine 0 0 5 1 255 ≠ (Matrix.init 8 8).drawLine 5 1 0 0 255 ∧
    ((Matrix.init 8 8).drawLine 0 0 5 1 255).get 1 1 = some 255 ∧
    ((Matrix.init 8 8).drawLine 5 1 0 0 255).get 1 1 = some 0 := by
  refine ⟨by decide, by decide, by decide⟩

/-- C7 (amended): for distinct endpoints, both rasterization directions do
paint both endpoints and the same number of samples
(`max |dx| |dy| + 1` each), but the painted sets are not identical in
general (see the counterexample at `(0,0)–(5,1)`). -/
theorem C7_amended (x0 y0 x1 y1 : Int) (hne : ((x0, y0) : Int × Int) ≠ (x1, y1)) :
    (x0, y0) ∈ linePts x0 y0 x1 y1 ∧ (x1, y1) ∈ linePts x0 y0 x1 y1 ∧
    (x1, y1) ∈ linePts x1 y1 x0 y0 ∧ (x0, y0) ∈ linePts x1 y1 x0 y0 ∧
    (linePts x0 y0 x1 y1).length = (linePts x1 y1 x0 y0).length ∧
    (linePts x0 y0 x1 y1).length = max (x1 - x0).natAbs (y1 - y0).natAbs + 1 := by
  have hne2 := ne_pair x0 y0 x1 y1 hne
  have hne3 : ((x1, y1) : Int × Int) ≠ (x0, y0) := fun h => hne h.symm
  have hne4 := ne_pair x1 y1 x0 y0 hne3
  have hl1 := linePts_length_eq x0 y0 x1 y1 hne2
  have hl2 := linePts_length_eq x1 y1 x0 y0 hne4
  refine ⟨(linePts_endpoints x0 y0 x1 y1 hne2).1, (linePts_endpoints x0 y0 x1 y1 hne2).2,
    (linePts_endpoints x1 y1 x0 y0 hne4).1, (linePts_endpoints x1 y1 x0 y0 hne4).2,
    ?_, ?_⟩
  · rw [hl1, hl2]
    congr 1
    omega
  · rw [hl1]
    congr 1
    omega

/-- C7 (witness): the `(0,0)–(5,1)` instance of the amended statement. -/
theorem C7_witness :
    (0, 0) ∈ linePts 0 0 5 1 ∧ (5, 1) ∈ linePts 5 1 0 0 ∧
    (linePts 0 0 5 1).length = (linePts 5 1 0 0).length := by
  have h := C7_amended 0 0 5 1 (by decide)
  exact ⟨h.1, h.2.2.1, h.2.2.2.2.1⟩

end Gcode
